import Mathlib

/-!
# SpecEngine: shallow embedding and verification

A shallow embedding of the `spec_engine` Python package (field model,
heuristic prompt parser, gap-resolution loop, markdown renderer and
structural validator), together with theorems settling the specification
claims about it.

Python strings are modelled as Lean `String` / `List Char`; the Python
floats used for confidences in the heuristic pipeline are modelled as `ℚ`
(all of them are decimal literals, so this is exact), while the floats
the LLM payload validation can encounter are modelled as `PyFloat` — a
finite value carried as an exact rational, a signed infinity, or NaN —
with `float()` conversion rounding to the nearest IEEE-754 double.
-/

namespace SpecEngine

/-! ## Python string primitives -/

/-- Characters accepted by Python `str.isspace()` / stripped by `str.strip()`
and matched by `\s` in a (unicode) `re` pattern. -/
def charIsPySpace (c : Char) : Bool :=
  c = ' ' || c = '\t' || c = '\n' || c = '\r' ||
  c.val = 0x0b || c.val = 0x0c ||
  c.val = 0x1c || c.val = 0x1d || c.val = 0x1e || c.val = 0x1f ||
  c.val = 0x85 || c.val = 0xa0 || c.val = 0x1680 ||
  (0x2000 ≤ c.val && c.val ≤ 0x200a) ||
  c.val = 0x2028 || c.val = 0x2029 || c.val = 0x202f ||
  c.val = 0x205f || c.val = 0x3000

/-- Characters at which Python `str.splitlines()` breaks a line
(`\r\n` is additionally treated as a single break). -/
def charIsLineBreak (c : Char) : Bool :=
  c = '\n' || c = '\r' || c.val = 0x0b || c.val = 0x0c ||
  c.val = 0x1c || c.val = 0x1d || c.val = 0x1e ||
  c.val = 0x85 || c.val = 0x2028 || c.val = 0x2029

/-- Python `str.strip()` on a character list: leading and trailing
whitespace removed. -/
def stripChars (l : List Char) : List Char :=
  (l.dropWhile charIsPySpace).rdropWhile charIsPySpace

/-- Python `str.strip()`. -/
def pyStrip (s : String) : String := ⟨stripChars s.data⟩

/-- Auxiliary for `pySplitLines`: accumulates the current line (reversed).
The boolean records that the previous character was `'\r'`, so that a
following `'\n'` is part of the same `"\r\n"` break. -/
def splitLinesAux : Bool → List Char → List Char → List (List Char)
  | _, [], acc => if acc.isEmpty then [] else [acc.reverse]
  | prevCR, c :: rest, acc =>
      if c = '\n' then
        if prevCR then splitLinesAux false rest acc
        else acc.reverse :: splitLinesAux false rest []
      else if c = '\r' then acc.reverse :: splitLinesAux true rest []
      else if charIsLineBreak c then acc.reverse :: splitLinesAux false rest []
      else splitLinesAux false rest (c :: acc)

/-- Python `str.splitlines()`. -/
def pySplitLines (s : String) : List String :=
  (splitLinesAux false s.data []).map fun l => ⟨l⟩

/-- Python `str.split()` (no separator: split on whitespace runs, no empties). -/
def pySplitWsAux : List Char → List Char → List (List Char)
  | [], acc => if acc.isEmpty then [] else [acc.reverse]
  | c :: rest, acc =>
      if charIsPySpace c then
        if acc.isEmpty then pySplitWsAux rest []
        else acc.reverse :: pySplitWsAux rest []
      else pySplitWsAux rest (c :: acc)

/-- Python `str.split()`. -/
def pySplitWs (s : String) : List String :=
  (pySplitWsAux s.data []).map fun l => ⟨l⟩

/-- Python `"sep".join(parts)`. -/
def pyJoin (sep : String) (parts : List String) : String :=
  match parts with
  | [] => ""
  | p :: rest => rest.foldl (fun acc q => acc ++ sep ++ q) p

/-- Python ASCII `str.lower()` (all strings compared in the program are ASCII). -/
def asciiLowerChar (c : Char) : Char :=
  if 'A' ≤ c ∧ c ≤ 'Z' then Char.ofNat (c.toNat + 32) else c

/-- ASCII lower-casing of a string. -/
def asciiLower (s : String) : String := ⟨s.data.map asciiLowerChar⟩

/-- Python ASCII `str.upper()` on one character. -/
def asciiUpperChar (c : Char) : Char :=
  if 'a' ≤ c ∧ c ≤ 'z' then Char.ofNat (c.toNat - 32) else c

/-- Python `str.capitalize()`: first character upper-cased, rest lower-cased. -/
def pyCapitalize (s : String) : String :=
  match s.data with
  | [] => ""
  | c :: rest => ⟨asciiUpperChar c :: rest.map asciiLowerChar⟩

/-- Is `p` a prefix of `l`? -/
def listIsPrefixOf : List Char → List Char → Bool
  | [], _ => true
  | _ :: _, [] => false
  | a :: p, b :: l => a = b && listIsPrefixOf p l

/-- Is `p` an infix of `l`? -/
def listIsInfixOf (p : List Char) : List Char → Bool
  | [] => listIsPrefixOf p []
  | b :: l => listIsPrefixOf p (b :: l) || listIsInfixOf p l

/-- Substring containment, Python `needle in haystack`. -/
def containsSub (haystack needle : String) : Bool :=
  listIsInfixOf needle.data haystack.data

/-- Python `str.rstrip(".")`: drop trailing `'.'` characters. -/
def rstripDots (s : String) : String :=
  ⟨(s.data.reverse.dropWhile (· = '.')).reverse⟩

/-! ## Field model (`models.py`) -/

/-- The canonical texts of the `ProjectType` enumeration, in declaration order. -/
def projectTypeValues : List String :=
  ["library", "service", "CLI tool", "web app", "backend API",
   "frontend UI", "full-stack app"]

/-- The eight required field names, in their fixed order (`REQUIRED_FIELDS`). -/
inductive FieldName where
  | project_name | project_type | primary_goal | target_users
  | inputs | outputs | constraints | non_goals
deriving DecidableEq, Repr, Fintype

/-- The Python string naming a required field. -/
def FieldName.str : FieldName → String
  | .project_name => "project_name"
  | .project_type => "project_type"
  | .primary_goal => "primary_goal"
  | .target_users => "target_users"
  | .inputs => "inputs"
  | .outputs => "outputs"
  | .constraints => "constraints"
  | .non_goals => "non_goals"

/-- `REQUIRED_FIELDS`, the fixed iteration order. -/
def REQUIRED_FIELDS : List FieldName :=
  [.project_name, .project_type, .primary_goal, .target_users,
   .inputs, .outputs, .constraints, .non_goals]

/-- `FieldCandidate`: one extracted value with confidence and rationale. -/
structure FieldCandidate where
  value : String := ""
  confidence : ℚ := 0
  rationale : String := ""
deriving DecidableEq, Repr

/-- `SpecDraft`: the fixed set of eight required fields. -/
structure SpecDraft where
  project_name : FieldCandidate := {}
  project_type : FieldCandidate := {}
  primary_goal : FieldCandidate := {}
  target_users : FieldCandidate := {}
  inputs : FieldCandidate := {}
  outputs : FieldCandidate := {}
  constraints : FieldCandidate := {}
  non_goals : FieldCandidate := {}
deriving DecidableEq, Repr

/-- `getattr(draft, field_name)`. -/
def getF (d : SpecDraft) : FieldName → FieldCandidate
  | .project_name => d.project_name
  | .project_type => d.project_type
  | .primary_goal => d.primary_goal
  | .target_users => d.target_users
  | .inputs => d.inputs
  | .outputs => d.outputs
  | .constraints => d.constraints
  | .non_goals => d.non_goals

/-- `setattr(draft, field_name, candidate)`. -/
def setF (d : SpecDraft) : FieldName → FieldCandidate → SpecDraft
  | .project_name, c => { d with project_name := c }
  | .project_type, c => { d with project_type := c }
  | .primary_goal, c => { d with primary_goal := c }
  | .target_users, c => { d with target_users := c }
  | .inputs, c => { d with inputs := c }
  | .outputs, c => { d with outputs := c }
  | .constraints, c => { d with constraints := c }
  | .non_goals, c => { d with non_goals := c }

/-- `SpecDraft.missing_fields`: fields with blank value or confidence below
`min_confidence` (default 0.5), in the fixed order. -/
def missingFields (d : SpecDraft) (minConfidence : ℚ := mkRat 1 2) : List String :=
  (REQUIRED_FIELDS.filter fun f =>
    (pyStrip (getF d f).value == "") ||
      decide ((getF d f).confidence < minConfidence)).map FieldName.str

/-- `SpecDraft.ambiguous_fields`: fields with non-blank value and confidence in
`[min_confidence, accepted_confidence)` (defaults `[0.5, 0.8)`). -/
def ambiguousFields (d : SpecDraft) (minConfidence : ℚ := mkRat 1 2)
    (acceptedConfidence : ℚ := mkRat 4 5) : List String :=
  (REQUIRED_FIELDS.filter fun f =>
    !(pyStrip (getF d f).value == "") &&
      (decide (minConfidence ≤ (getF d f).confidence) &&
        decide ((getF d f).confidence < acceptedConfidence))).map FieldName.str

/-! ## Heuristic parser (`parser.py`)

The label regexes of `LABEL_PATTERNS` all have the shape
`(?:alt₁|alt₂)\s*:\s*(.+)` (with `IGNORECASE`), where each alternative is a
literal interleaved with `\s*`, `[-\s]*` or `s?`.  Because each such
quantifier is followed by a character it can never match (`:` after `\s*`,
a letter after the gap classes), the backtracking search is deterministic:
consuming the maximal run is the only way to proceed.  The matcher below
implements exactly that, scanning match positions left to right as
`re.search` does. -/

/-- One token of a label alternative: a case-insensitive literal, a `\s*`
gap, a `[-\s]*` gap, or an optional trailing `s` (`s?`). -/
inductive RTok where
  | lit (s : String)
  | ws
  | wsOrDash
  | optS
deriving Repr

/-- Case-insensitive (ASCII) prefix test; returns the remainder on success. -/
def dropPrefixCI : List Char → List Char → Option (List Char)
  | [], l => some l
  | _ :: _, [] => none
  | a :: p, b :: l =>
      if asciiLowerChar a = asciiLowerChar b then dropPrefixCI p l else none

/-- Match a label alternative at the head of `l`, returning the remainder. -/
def matchToks : List RTok → List Char → Option (List Char)
  | [], l => some l
  | .lit s :: rest, l =>
      match dropPrefixCI s.data l with
      | some l' => matchToks rest l'
      | none => none
  | .ws :: rest, l => matchToks rest (l.dropWhile charIsPySpace)
  | .wsOrDash :: rest, l =>
      matchToks rest (l.dropWhile fun c => charIsPySpace c || c = '-')
  | .optS :: rest, l =>
      match l with
      | 's' :: l' => matchToks rest l'
      | 'S' :: l' => matchToks rest l'
      | _ => matchToks rest l

/-- Match the shared suffix `\s*:\s*(.+)` at the head of `l`; the greedy
group runs to the end of the line. -/
def matchColonGroup (l : List Char) : Option (List Char) :=
  match l.dropWhile charIsPySpace with
  | ':' :: l' =>
      match l'.dropWhile charIsPySpace with
      | [] => none
      | g => some g
  | _ => none

/-- Try every alternative of the pattern at the head of `l`, in order. -/
def matchAltsAt (alts : List (List RTok)) (l : List Char) : Option (List Char) :=
  match alts with
  | [] => none
  | a :: rest =>
      match matchToks a l with
      | some l' =>
          match matchColonGroup l' with
          | some g => some g
          | none => matchAltsAt rest l
      | none => matchAltsAt rest l

/-- `re.search`: scan match positions left to right. -/
def searchPattern (alts : List (List RTok)) : List Char → Option (List Char)
  | [] => matchAltsAt alts []
  | c :: l =>
      match matchAltsAt alts (c :: l) with
      | some g => some g
      | none => searchPattern alts l

/-- The `LABEL_PATTERNS` entry for a field, in the dict's insertion order. -/
def labelPattern : FieldName → List (List RTok)
  | .project_name => [[.lit "project", .ws, .lit "name"], [.lit "name"]]
  | .project_type => [[.lit "project", .ws, .lit "type"], [.lit "type"]]
  | .primary_goal => [[.lit "primary", .ws, .lit "goal"], [.lit "goal"]]
  | .target_users => [[.lit "target", .ws, .lit "users"], [.lit "users"]]
  | .inputs => [[.lit "input", .optS]]
  | .outputs => [[.lit "output", .optS]]
  | .constraints => [[.lit "constraint", .optS]]
  | .non_goals => [[.lit "non", .wsOrDash, .lit "goal", .optS]]

/-- `_extract_from_lines`: first line the pattern matches yields
`group(1).strip().rstrip(".")`; no match yields `""`. -/
def extractFromLines (lines : List String) (alts : List (List RTok)) : String :=
  match lines with
  | [] => ""
  | l :: rest =>
      match searchPattern alts l.data with
      | some g => rstripDots (pyStrip ⟨g⟩)
      | none => extractFromLines rest alts

/-- `_infer_project_type`: ordered keyword buckets over the lower-cased
prompt; the first bucket with a substring hit wins. -/
def inferProjectType (text : String) : String :=
  let lowered := asciiLower text
  let hit := fun (terms : List String) => terms.any (containsSub lowered)
  if hit ["full stack", "frontend and backend", "end-to-end app"] then
    "full-stack app"
  else if hit ["api", "endpoint", "rest", "graphql"] then "backend API"
  else if hit ["frontend", "ui", "single-page", "spa"] then "frontend UI"
  else if hit ["web app", "website", "browser app"] then "web app"
  else if hit ["cli", "command line", "terminal tool"] then "CLI tool"
  else if hit ["service", "daemon", "worker"] then "service"
  else if hit ["library", "sdk", "package"] then "library"
  else ""

/-- A character of the `re.findall` word class `[A-Za-z0-9\-]`. -/
def isWordChar (c : Char) : Bool :=
  ('A' ≤ c && c ≤ 'Z') || ('a' ≤ c && c ≤ 'z') ||
  ('0' ≤ c && c ≤ '9') || c = '-'

/-- `re.findall(r"[A-Za-z0-9\-]+", text)`: maximal word-character runs. -/
def findWordsAux : List Char → List Char → List (List Char)
  | [], acc => if acc.isEmpty then [] else [acc.reverse]
  | c :: rest, acc =>
      if isWordChar c then findWordsAux rest (c :: acc)
      else if acc.isEmpty then findWordsAux rest []
      else acc.reverse :: findWordsAux rest []

/-- `_infer_project_name`: first four word tokens, capitalized and joined. -/
def inferProjectName (text : String) : String :=
  let words := (findWordsAux text.data []).map fun l => (⟨l⟩ : String)
  match words with
  | [] => ""
  | _ => pyJoin " " ((words.take 4).map pyCapitalize)

/-- One iteration of the label loop in `parse_prompt`: set the field at
confidence 0.95 when the extracted value is non-empty. -/
def labelStep (d : SpecDraft) (f : FieldName) (v : String) : SpecDraft :=
  if v == "" then d
  else setF d f { value := v, confidence := mkRat 19 20, rationale := "explicit_label" }

/-- `parse_prompt`: label extraction, then project-type / project-name /
primary-goal fallbacks. -/
def parsePrompt (prompt : String) : SpecDraft :=
  let lines := ((pySplitLines prompt).map pyStrip).filter fun l => !(l == "")
  let joined := pyJoin " " lines
  let d : SpecDraft := {}
  let d := labelStep d .project_name (extractFromLines lines (labelPattern .project_name))
  let d := labelStep d .project_type (extractFromLines lines (labelPattern .project_type))
  let d := labelStep d .primary_goal (extractFromLines lines (labelPattern .primary_goal))
  let d := labelStep d .target_users (extractFromLines lines (labelPattern .target_users))
  let d := labelStep d .inputs (extractFromLines lines (labelPattern .inputs))
  let d := labelStep d .outputs (extractFromLines lines (labelPattern .outputs))
  let d := labelStep d .constraints (extractFromLines lines (labelPattern .constraints))
  let d := labelStep d .non_goals (extractFromLines lines (labelPattern .non_goals))
  let d :=
    if (getF d .project_type).value == "" then
      let it := inferProjectType joined
      if it == "" then d
      else setF d .project_type { value := it, confidence := mkRat 7 10, rationale := "keyword_inference" }
    else d
  let d :=
    if (getF d .project_name).value == "" then
      let n := inferProjectName joined
      if n == "" then d
      else setF d .project_name { value := n, confidence := mkRat 11 20, rationale := "title_inference" }
    else d
  let d :=
    if (getF d .primary_goal).value == "" && !(joined == "") then
      setF d .primary_goal
        { value := ⟨joined.data.take 220⟩, confidence := mkRat 2 5,
          rationale := "fallback_prompt_excerpt" }
    else d
  d

/-- `" ".join(value.strip().split())`: whitespace collapse. -/
def pyCollapse (value : String) : String :=
  pyJoin " " (pySplitWs (pyStrip value))

/-- `normalize_user_field_value`: whitespace-collapse; canonicalize the
project type against the enumeration (first case-insensitive match), else
keep the collapsed text at reduced confidence. -/
def normalizeUserFieldValue (fieldName : String) (value : String) :
    String × ℚ :=
  let cleaned := pyCollapse value
  if fieldName == "project_type" then
    match projectTypeValues.find? fun pt => asciiLower cleaned == asciiLower pt with
    | some pt => (pt, 1)
    | none => (cleaned, mkRat 2 5)
  else (cleaned, if cleaned == "" then 0 else 1)

/-! ## Gap-resolution engine (`engine.py`) and CLI generate path (`cli.py`) -/

/-- The `SpecProvider` protocol: extraction, follow-up generation and
normalization, plus the `is_llm_provider` flag read by `build_spec_draft`. -/
structure Provider where
  isLLM : Bool
  extract : String → SpecDraft
  genFollowup : FieldName → SpecDraft → String
  normalize : SpecDraft → SpecDraft

/-- `LocalProvider.generate_followup`: the fixed question lookup table. -/
def localFollowup (f : FieldName) (_ : SpecDraft) : String :=
  match f with
  | .project_name => "What is the project name?"
  | .project_type => "What is the project type? (library, service, CLI tool, web app, backend API, frontend UI, full-stack app)"
  | .primary_goal => "What is the primary goal in one sentence?"
  | .target_users => "Who are the target users?"
  | .inputs => "What inputs does the system receive?"
  | .outputs => "What outputs does the system produce?"
  | .constraints => "What constraints must be followed? (language/runtime/performance/security/platform)"
  | .non_goals => "What is explicitly out of scope (non-goals)?"

/-- `LocalProvider`: heuristic extraction, table follow-ups, no-op
normalization, `is_llm_provider = False`. -/
def localProvider : Provider :=
  { isLLM := false, extract := parsePrompt, genFollowup := localFollowup,
    normalize := id }

/-- `needs_answer` in `_resolve_gaps_interactively`: blank value or
confidence below 0.8. -/
def needsAnswer (d : SpecDraft) (f : FieldName) : Bool :=
  (pyStrip (getF d f).value == "") || decide ((getF d f).confidence < mkRat 4 5)

/-- The body executed for a needy field: ask, and on a non-blank answer
replace the candidate with the normalized answer. -/
def gapStep (genQ : FieldName → SpecDraft → String) (ask : String → String)
    (d : SpecDraft) (f : FieldName) : SpecDraft :=
  let answer := pyStrip (ask (genQ f d))
  if answer == "" then d
  else
    let nc := normalizeUserFieldValue f.str answer
    setF d f
      { value := nc.1, confidence := nc.2, rationale := "interactive_user_answer" }

/-- Has the follow-up cap been reached? (`max_followups is not None and
followups_asked >= max_followups`). -/
def capReached (cap : Option Nat) (count : Nat) : Bool :=
  match cap with
  | none => false
  | some m => decide (m ≤ count)

/-- Result of a gap-resolution run: final draft and the fields a follow-up
question was asked for, in order. -/
structure GapResult where
  draft : SpecDraft
  asked : List FieldName

/-- The loop of `_resolve_gaps_interactively` over the remaining fields,
carrying the draft and the running follow-up count. -/
def resolveGapsAux (genQ : FieldName → SpecDraft → String)
    (ask : String → String) (cap : Option Nat) :
    List FieldName → SpecDraft → Nat → GapResult
  | [], d, _ => { draft := d, asked := [] }
  | f :: rest, d, count =>
      if capReached cap count then { draft := d, asked := [] }
      else if !needsAnswer d f then resolveGapsAux genQ ask cap rest d count
      else
        let d' := gapStep genQ ask d f
        let r := resolveGapsAux genQ ask cap rest d' (count + 1)
        { draft := r.draft, asked := f :: r.asked }

/-- `_resolve_gaps_interactively`: one ordered pass over `REQUIRED_FIELDS`. -/
def resolveGaps (genQ : FieldName → SpecDraft → String)
    (ask : String → String) (cap : Option Nat) (d : SpecDraft) : GapResult :=
  resolveGapsAux genQ ask cap REQUIRED_FIELDS d 0

/-- `BuildResult`. -/
structure BuildResult where
  draft : SpecDraft
  missing_fields : List String
  ambiguous_fields : List String
deriving Repr

/-- The cap chosen by `build_spec_draft`:
`3 if provider.is_llm_provider else None`. -/
def capFor (p : Provider) : Option Nat := if p.isLLM then some 3 else none

/-- `build_spec_draft`. -/
def buildSpecDraft (prompt : String) (interactive : Bool) (p : Provider)
    (ask : String → String) : BuildResult :=
  let draft := p.extract prompt
  let draft :=
    if interactive then (resolveGaps p.genFollowup ask (capFor p) draft).draft
    else draft
  let draft := p.normalize draft
  { draft := draft, missing_fields := missingFields draft,
    ambiguous_fields := ambiguousFields draft }

/-- `_generate_spec` on the non-interactive heuristic path: exit code and
the stderr text (file output elided; success writes the document and exits
0, which the pair `(0, "")` records). -/
def generateSpecNonInteractive (prompt : String) : Nat × String :=
  let result := buildSpecDraft prompt false localProvider fun _ => ""
  if !result.missing_fields.isEmpty then
    (1, "Missing required information: " ++ pyJoin ", " result.missing_fields ++ "\n")
  else (0, "")

/-! ## Theorems: disjointness of the derived lists -/

lemma fieldNameStr_inj : ∀ f g : FieldName, f.str = g.str → f = g := by
  intro f g
  cases f <;> cases g <;> intro h <;>
    first
    | rfl
    | exact absurd h (by decide)

/-- **C3.** For every Spec Draft — any combination of field values and
confidences — the derived `missing_fields` and `ambiguous_fields` lists are
disjoint: their intersection is empty. A field in `ambiguous_fields` has a
non-blank value and confidence at least 0.5, which falsifies both disjuncts
of the `missing_fields` test. -/
theorem missing_ambiguous_disjoint (d : SpecDraft) :
    (missingFields d).inter (ambiguousFields d) = [] := by
  rw [List.inter]
  apply List.filter_eq_nil_iff.mpr
  intro a ha
  simp only [missingFields, List.mem_map, List.mem_filter] at ha
  obtain ⟨f, ⟨-, hf⟩, rfl⟩ := ha
  simp only [List.elem_eq_mem, decide_eq_true_eq, ambiguousFields, List.mem_map,
    List.mem_filter]
  rintro ⟨g, ⟨-, hg⟩, hstr⟩
  obtain rfl := fieldNameStr_inj g f hstr
  simp only [Bool.or_eq_true, decide_eq_true_eq, beq_iff_eq] at hf
  simp only [Bool.and_eq_true, Bool.not_eq_true', beq_eq_false_iff_ne, ne_eq,
    decide_eq_true_eq] at hg
  obtain ⟨hval, hconf, -⟩ := hg
  rcases hf with h | h
  · exact hval h
  · exact absurd (lt_of_le_of_lt hconf h) (lt_irrefl _)

/-! ## Renderer (`renderer.py`) -/

/-- `_split_to_bullets`: replace `;` by `,`, split on `,`, strip the parts,
drop blanks; fall back to a fixed bullet when nothing remains. -/
def splitCommaAux : List Char → List Char → List (List Char)
  | [], acc => [acc.reverse]
  | c :: rest, acc =>
      if c = ',' then acc.reverse :: splitCommaAux rest []
      else splitCommaAux rest (c :: acc)

/-- `_split_to_bullets`. -/
def splitToBullets (value : String) : List String :=
  let parts :=
    ((splitCommaAux (value.data.map fun c => if c = ';' then ',' else c) []).map
      fun l => pyStrip ⟨l⟩).filter fun p => !(p == "")
  if parts.isEmpty then ["None specified."] else parts

/-- `_default_functional_requirements`. -/
def defaultFunctionalRequirements (inputs outputs primaryGoal : String) :
    List String :=
  ["The system SHALL accept and validate the defined inputs: " ++ inputs ++ ".",
   "The system SHALL produce outputs in the defined format: " ++ outputs ++ ".",
   "The system SHALL implement behavior that directly supports this goal: " ++
     primaryGoal ++ ".",
   "The system SHALL return deterministic results for identical valid inputs."]

/-- `_default_non_functional_requirements`. -/
def defaultNonFunctionalRequirements (constraints : String) : List String :=
  let lowered := asciiLower constraints
  let hit := fun (terms : List String) => terms.any (containsSub lowered)
  let items :=
    (if hit ["performance", "latency", "throughput", "fast"] then
      ["Performance: Must satisfy declared performance expectations."] else []) ++
    (if hit ["reliable", "availability", "uptime", "fault"] then
      ["Reliability: Must handle errors predictably and recover safely."] else []) ++
    (if hit ["security", "auth", "encryption", "privacy"] then
      ["Security: Must enforce relevant security controls and data protections."] else []) ++
    (if hit ["maintain", "readable", "modular", "test"] then
      ["Maintainability: Code and interfaces must remain testable and maintainable."] else [])
  if items.isEmpty then
    ["Maintainability: Implementation must remain testable and readable."]
  else items

/-- `_default_acceptance_criteria`. -/
def defaultAcceptanceCriteria (projectName outputs : String) : List String :=
  ["`" ++ projectName ++ "` generates the expected output: " ++ outputs ++ ".",
   "All required fields are present and non-ambiguous in the generated specification.",
   "The specification follows the mandated section order and headings."]

/-- `f"{idx}. {item}"` over `enumerate(items, start=1)`. -/
def numberItems (items : List String) : List String :=
  items.enum.map fun p => Nat.repr (p.1 + 1) ++ ". " ++ p.2

/-- The `sections` list of `render_spec_markdown`. -/
def renderSections (d : SpecDraft) : List String :=
  let projectName := d.project_name.value
  let projectType := d.project_type.value
  let primaryGoal := d.primary_goal.value
  let targetUsers := d.target_users.value
  let inputs := d.inputs.value
  let outputs := d.outputs.value
  let constraints := d.constraints.value
  let nonGoals := d.non_goals.value
  let inScopeItems := splitToBullets
    ("Deliver core " ++ projectType ++ " behavior aligned to goal: " ++
      primaryGoal ++ ". Support primary user group: " ++ targetUsers ++
      ". Handle defined inputs and produce defined outputs.")
  let outOfScopeItems := splitToBullets nonGoals
  let functionalRequirements :=
    defaultFunctionalRequirements inputs outputs primaryGoal
  let nonFunctional := defaultNonFunctionalRequirements constraints
  let acceptanceCriteria := defaultAcceptanceCriteria projectName outputs
  ["# Project Specification",
   "",
   "## 1. Overview",
   "- Project Name: " ++ projectName,
   "- Project Type: " ++ projectType,
   "- Primary Goal: " ++ primaryGoal,
   "- Target Users: " ++ targetUsers,
   "",
   "## 2. Problem Statement",
   "- The current workflow does not reliably satisfy this objective: " ++
     primaryGoal ++ ".",
   "",
   "## 3. Scope",
   "### In Scope"] ++
  inScopeItems.map (fun item => "- " ++ item) ++
  ["",
   "### Out of Scope"] ++
  outOfScopeItems.map (fun item => "- " ++ item) ++
  ["",
   "## 4. Functional Requirements"] ++
  numberItems functionalRequirements ++
  ["",
   "## 5. Non-Functional Requirements"] ++
  nonFunctional.map (fun item => "- " ++ item) ++
  ["",
   "## 6. Inputs",
   "- " ++ inputs,
   "",
   "## 7. Outputs",
   "- " ++ outputs,
   "",
   "## 8. Constraints",
   "- " ++ constraints,
   "",
   "## 9. Assumptions",
   "- User-provided answers are accurate and complete at generation time.",
   "- Requirements may require refinement if domain constraints change.",
   "",
   "## 10. Acceptance Criteria"] ++
  acceptanceCriteria.map (fun item => "- " ++ item)

/-- `render_spec_markdown`: the section lines joined by `"\n"`, with a
trailing newline. -/
def renderSpecMarkdown (d : SpecDraft) : String :=
  pyJoin "\n" (renderSections d) ++ "\n"

/-! ## Structural validator and coercion (`quality.py`) -/

/-- `EXPECTED_HEADINGS`. -/
def EXPECTED_HEADINGS : List String :=
  ["# Project Specification",
   "## 1. Overview",
   "## 2. Problem Statement",
   "## 3. Scope",
   "### In Scope",
   "### Out of Scope",
   "## 4. Functional Requirements",
   "## 5. Non-Functional Requirements",
   "## 6. Inputs",
   "## 7. Outputs",
   "## 8. Constraints",
   "## 9. Assumptions",
   "## 10. Acceptance Criteria"]

/-- Python `str.startswith("#")`. -/
def startsWithHash (s : String) : Bool :=
  match s.data with
  | '#' :: _ => true
  | _ => false

/-- `\d+\.\s` anchored at the start: a maximal non-empty ASCII digit run,
then `'.'`, then one whitespace character.  (`\d` is modelled as the ASCII
digits; every digit the program itself emits is ASCII.) -/
def startsNumDot (l : List Char) : Bool :=
  let digits := l.takeWhile Char.isDigit
  if digits.isEmpty then false
  else
    match l.drop digits.length with
    | '.' :: c :: _ => charIsPySpace c
    | _ => false

/-- The validator's `allowed_prefix` regex `^(#|-\s|\d+\.\s)` applied to a
(stripped) line. -/
def allowedPrefix (l : List Char) : Bool :=
  match l with
  | [] => false
  | c :: rest =>
      if c = '#' then true
      else if c = '-' then
        match rest with
        | c2 :: _ => charIsPySpace c2
        | [] => false
      else startsNumDot (c :: rest)

/-- The per-line prose check of `validate_spec_markdown`, with 1-based
line numbers. -/
def lineErrors : Nat → List String → List String
  | _, [] => []
  | idx, raw :: rest =>
      let line := pyStrip raw
      if line == "" then lineErrors (idx + 1) rest
      else if allowedPrefix line.data then lineErrors (idx + 1) rest
      else
        ("Line " ++ Nat.repr idx ++
            " contains non-list prose or unsupported formatting: " ++ line) ::
          lineErrors (idx + 1) rest

/-- `validate_spec_markdown`. -/
def validateSpecMarkdown (content : String) : List String :=
  let lines := pySplitLines content
  let firstNonEmpty :=
    (((lines.map pyStrip).filter fun l => !(l == "")).headD "")
  let e1 : List String :=
    if firstNonEmpty == "# Project Specification" then []
    else ["First non-empty line must be '# Project Specification'."]
  let headings := (lines.map pyStrip).filter startsWithHash
  let e2 : List String :=
    if headings == EXPECTED_HEADINGS then []
    else ["Headings must match strict required structure and ordering."]
  e1 ++ e2 ++ lineErrors 1 lines

/-- Modelled from the spec: the coercion transform
`coerce_to_list_markdown` is imported and exercised by the repository's
tests (`tests/test_quality.py`) but its definition is absent from the
source tree.  Per §4.4 of the specification it "takes non-conforming body
text and rewrites each offending prose line into a bullet line", while
lines that already conform — headings, dash bullets and numbered-list
lines (the latter "preserved verbatim to avoid renumbering semantics") —
and blank lines are kept as they are.  The conformance test is the
validator's own `allowed_prefix` applied to the stripped line. -/
def coerceLine (raw : String) : String :=
  let line := pyStrip raw
  if line == "" then raw
  else if allowedPrefix line.data then raw
  else "- " ++ line

/-- Modelled from the spec: `coerce_to_list_markdown`, the line-wise
coercion over the whole document. -/
def coerceToListMarkdown (content : String) : String :=
  pyJoin "\n" ((pySplitLines content).map coerceLine) ++ "\n"

/-! ## String lemmas for the renderer/validator round trip -/

/-- `l` contains a non-whitespace character (Python truthiness of the
stripped string). -/
def hasNonSpace (l : List Char) : Prop :=
  ∃ c ∈ l, charIsPySpace c = false

instance (l : List Char) : Decidable (hasNonSpace l) :=
  inferInstanceAs (Decidable (∃ c ∈ l, charIsPySpace c = false))

/-- A string free of line-break characters: `str.splitlines` leaves it
whole. -/
def BFstr (s : String) : Prop :=
  ∀ c ∈ s.data, charIsLineBreak c = false

instance (s : String) : Decidable (BFstr s) :=
  inferInstanceAs (Decidable (∀ c ∈ s.data, charIsLineBreak c = false))

lemma BFstr_append {a b : String} (ha : BFstr a) (hb : BFstr b) :
    BFstr (a ++ b) := by
  intro c hc
  rcases List.mem_append.mp hc with h | h
  exacts [ha c h, hb c h]

lemma rdropWhile_ws_ne_nil_iff (l : List Char) :
    l.rdropWhile charIsPySpace ≠ [] ↔ hasNonSpace l := by
  rw [Ne, List.rdropWhile_eq_nil_iff, hasNonSpace]
  push_neg
  simp [Bool.not_eq_true]

lemma rdropWhile_cons_nonspace (c : Char) (l : List Char)
    (hc : charIsPySpace c = false) :
    (c :: l).rdropWhile charIsPySpace = c :: l.rdropWhile charIsPySpace := by
  rw [List.rdropWhile, List.rdropWhile, List.reverse_cons, List.dropWhile_append]
  split
  · rename_i h
    rw [List.isEmpty_iff] at h
    rw [h, List.dropWhile_cons, if_neg (by simp [hc])]
    simp
  · simp

lemma rdropWhile_cons_of_ne_nil (c : Char) (l : List Char)
    (h : l.rdropWhile charIsPySpace ≠ []) :
    (c :: l).rdropWhile charIsPySpace = c :: l.rdropWhile charIsPySpace := by
  rw [List.rdropWhile, List.rdropWhile, List.reverse_cons, List.dropWhile_append]
  rw [List.rdropWhile] at h
  split
  · rename_i hx
    rw [List.isEmpty_iff] at hx
    rw [hx] at h
    simp at h
  · simp

lemma stripChars_cons_nonspace (c : Char) (l : List Char)
    (hc : charIsPySpace c = false) :
    stripChars (c :: l) = c :: l.rdropWhile charIsPySpace := by
  rw [stripChars, List.dropWhile_cons, if_neg (by simp [hc]),
    rdropWhile_cons_nonspace c l hc]

lemma dropWhile_head_false {p : Char → Bool} :
    ∀ (l : List Char) (a : Char) (s : List Char),
      l.dropWhile p = a :: s → p a = false := by
  intro l
  induction l with
  | nil => intro a s h; simp at h
  | cons x xs ih =>
      intro a s h
      rw [List.dropWhile_cons] at h
      by_cases hx : p x = true
      · rw [if_pos hx] at h
        exact ih a s h
      · rw [if_neg hx] at h
        cases h
        simpa using hx

lemma stripChars_ne_nil_iff (l : List Char) :
    stripChars l ≠ [] ↔ hasNonSpace l := by
  rw [stripChars, rdropWhile_ws_ne_nil_iff]
  constructor
  · rintro ⟨c, hc, hcs⟩
    exact ⟨c, (List.dropWhile_sublist _).subset hc, hcs⟩
  · rintro ⟨c, hc, hcs⟩
    refine ⟨c, ?_, hcs⟩
    rcases List.mem_append.mp
        (by rw [List.takeWhile_append_dropWhile]; exact hc :
          c ∈ l.takeWhile charIsPySpace ++ l.dropWhile charIsPySpace) with h | h
    · exact absurd (List.mem_takeWhile_imp h) (by simp [hcs])
    · exact h

lemma hasNonSpace_stripChars (l : List Char) (h : stripChars l ≠ []) :
    hasNonSpace (stripChars l) := by
  obtain ⟨a, t, ht⟩ : ∃ a t, stripChars l = a :: t := by
    cases hs : stripChars l with
    | nil => exact absurd hs h
    | cons a t => exact ⟨a, t, rfl⟩
  obtain ⟨rest, hrest⟩ :=
    (List.rdropWhile_prefix charIsPySpace (l.dropWhile charIsPySpace))
  have hm : l.dropWhile charIsPySpace = a :: (t ++ rest) := by
    rw [← hrest]
    rw [stripChars] at ht
    rw [ht]
    rfl
  exact ⟨a, by rw [ht]; exact List.mem_cons_self a t,
    dropWhile_head_false l a (t ++ rest) hm⟩

lemma stringMk_eq_empty_iff (l : List Char) :
    ((⟨l⟩ : String) = "") ↔ l = [] := by
  constructor
  · intro h
    exact congrArg String.data h
  · intro h
    rw [h]

lemma pyStrip_beq_empty (s : String) :
    (pyStrip s == "") = false ↔ hasNonSpace s.data := by
  rw [beq_eq_false_iff_ne, Ne, pyStrip, stringMk_eq_empty_iff,
    ← Ne, stripChars_ne_nil_iff]

/-- Observations the validator makes about a dash-bullet line `"- " ++ t`
whose tail contains a non-space character: non-blank, not a heading,
allowed. -/
lemma line_obs_dash (s : String) (t : List Char) (hs : s.data = '-' :: ' ' :: t)
    (h : hasNonSpace t) :
    (pyStrip s == "") = false ∧ startsWithHash (pyStrip s) = false ∧
      allowedPrefix (pyStrip s).data = true := by
  have hstrip : (pyStrip s).data = '-' :: ' ' :: t.rdropWhile charIsPySpace := by
    show (stripChars s.data) = _
    rw [hs, stripChars_cons_nonspace _ _ (by decide),
      rdropWhile_cons_of_ne_nil _ _ ((rdropWhile_ws_ne_nil_iff t).mpr h)]
  refine ⟨?_, ?_, ?_⟩
  · rw [pyStrip_beq_empty, hs]
    exact ⟨'-', List.mem_cons_self _ _, by decide⟩
  · rw [startsWithHash, hstrip]
    rfl
  · rw [hstrip]
    rfl

/-- Observations about a numbered line `"N. " ++ t` (`N` one of the digits
the renderer emits) with non-space tail: non-blank, not a heading,
allowed. -/
lemma line_obs_num (c1 : Char) (s : String) (t : List Char)
    (hs : s.data = c1 :: '.' :: ' ' :: t)
    (hc1 : c1 = '1' ∨ c1 = '2' ∨ c1 = '3' ∨ c1 = '4')
    (h : hasNonSpace t) :
    (pyStrip s == "") = false ∧ startsWithHash (pyStrip s) = false ∧
      allowedPrefix (pyStrip s).data = true := by
  have hns : charIsPySpace c1 = false := by
    rcases hc1 with rfl | rfl | rfl | rfl <;> decide
  have hstrip : (pyStrip s).data =
      c1 :: '.' :: ' ' :: t.rdropWhile charIsPySpace := by
    show (stripChars s.data) = _
    rw [hs, stripChars_cons_nonspace _ _ hns,
      rdropWhile_cons_nonspace _ _ (by decide),
      rdropWhile_cons_of_ne_nil _ _ ((rdropWhile_ws_ne_nil_iff t).mpr h)]
  refine ⟨?_, ?_, ?_⟩
  · rw [pyStrip_beq_empty, hs]
    exact ⟨c1, List.mem_cons_self _ _, hns⟩
  · rw [startsWithHash, hstrip]
    rcases hc1 with rfl | rfl | rfl | rfl <;> rfl
  · rw [hstrip]
    rcases hc1 with rfl | rfl | rfl | rfl <;> rfl

lemma splitLinesAux_cons_nonbreak (c : Char) (l acc : List Char)
    (h : charIsLineBreak c = false) :
    splitLinesAux false (c :: l) acc = splitLinesAux false l (c :: acc) := by
  have h1 : ¬ (c = '\n') := by rintro rfl; simp [charIsLineBreak] at h
  have h2 : ¬ (c = '\r') := by rintro rfl; simp [charIsLineBreak] at h
  rw [splitLinesAux, if_neg h1, if_neg h2, if_neg (by simp [h])]

lemma splitLinesAux_newline (l acc : List Char) :
    splitLinesAux false ('\n' :: l) acc =
      acc.reverse :: splitLinesAux false l [] := rfl

lemma splitLinesAux_no_break (l : List Char) :
    ∀ (rest acc : List Char), (∀ c ∈ l, charIsLineBreak c = false) →
      splitLinesAux false (l ++ '\n' :: rest) acc =
        (acc.reverse ++ l) :: splitLinesAux false rest [] := by
  induction l with
  | nil =>
      intro rest acc _
      rw [List.nil_append, splitLinesAux_newline, List.append_nil]
  | cons c l ih =>
      intro rest acc h
      rw [List.cons_append,
        splitLinesAux_cons_nonbreak c _ _ (h c (List.mem_cons_self c l)),
        ih rest (c :: acc) fun d hd => h d (List.mem_cons_of_mem _ hd)]
      congr 1
      simp

lemma foldl_append_init (sep : String) (t : List String) :
    ∀ (x y : String),
      t.foldl (fun acc q => acc ++ sep ++ q) (x ++ y) =
        x ++ t.foldl (fun acc q => acc ++ sep ++ q) y := by
  induction t with
  | nil => intro x y; rfl
  | cons q t ih =>
      intro x y
      show t.foldl _ (x ++ y ++ sep ++ q) = x ++ t.foldl _ (y ++ sep ++ q)
      rw [String.append_assoc x y sep, String.append_assoc x (y ++ sep) q]
      exact ih x (y ++ sep ++ q)

lemma pyJoin_cons_cons (sep a b : String) (t : List String) :
    pyJoin sep (a :: b :: t) = a ++ sep ++ pyJoin sep (b :: t) := by
  show (b :: t).foldl _ a = a ++ sep ++ (t.foldl _ b)
  rw [List.foldl_cons]
  exact foldl_append_init sep t (a ++ sep) b

lemma stringMk_data (s : String) : (⟨s.data⟩ : String) = s := rfl

lemma pySplitLines_join (L : List String) :
    L ≠ [] → (∀ s ∈ L, BFstr s) → pySplitLines (pyJoin "\n" L ++ "\n") = L := by
  induction L with
  | nil => intro h _; exact absurd rfl h
  | cons a t ih =>
      intro _ hbf
      cases t with
      | nil =>
          show pySplitLines (a ++ "\n") = [a]
          rw [pySplitLines,
            show (a ++ "\n").data = a.data ++ '\n' :: [] from rfl,
            splitLinesAux_no_break a.data [] []
              (hbf a (List.mem_cons_self a []))]
          simp [splitLinesAux, stringMk_data]
      | cons b t' =>
          rw [pyJoin_cons_cons, pySplitLines,
            show (a ++ "\n" ++ pyJoin "\n" (b :: t') ++ "\n").data =
              a.data ++ '\n' :: (pyJoin "\n" (b :: t') ++ "\n").data by
                simp [String.data_append, List.append_assoc],
            splitLinesAux_no_break a.data _ []
              (hbf a (List.mem_cons_self a _))]
          rw [List.map_cons]
          rw [show (splitLinesAux false (pyJoin "\n" (b :: t') ++ "\n").data
              []).map (fun l => (⟨l⟩ : String)) =
              pySplitLines (pyJoin "\n" (b :: t') ++ "\n") from rfl]
          rw [ih (by simp) fun s hs => hbf s (List.mem_cons_of_mem _ hs)]
          simp [stringMk_data]

lemma lineErrors_nil (L : List String)
    (h : ∀ s ∈ L, (pyStrip s == "") = true ∨
      allowedPrefix (pyStrip s).data = true) :
    ∀ n, lineErrors n L = [] := by
  induction L with
  | nil => intro n; rfl
  | cons a t ih =>
      intro n
      have ht := ih fun s hs => h s (List.mem_cons_of_mem _ hs)
      rcases h a (List.mem_cons_self a t) with ha | ha
      · simp only [lineErrors, ha, if_true]
        exact ht (n + 1)
      · simp only [lineErrors, ha, if_true]
        split
        · exact ht (n + 1)
        · exact ht (n + 1)

lemma splitCommaAux_subset :
    ∀ (l acc part : List Char), part ∈ splitCommaAux l acc →
      ∀ c ∈ part, c ∈ l ∨ c ∈ acc := by
  intro l
  induction l with
  | nil =>
      intro acc part hp c hc
      simp only [splitCommaAux, List.mem_singleton] at hp
      subst hp
      exact Or.inr (List.mem_reverse.mp hc)
  | cons d rest ih =>
      intro acc part hp c hc
      rw [splitCommaAux] at hp
      by_cases hd : d = ','
      · rw [if_pos hd] at hp
        rcases List.mem_cons.mp hp with rfl | hp'
        · exact Or.inr (List.mem_reverse.mp hc)
        · rcases ih [] part hp' c hc with h | h
          · exact Or.inl (List.mem_cons_of_mem _ h)
          · simp at h
      · rw [if_neg hd] at hp
        rcases ih (d :: acc) part hp c hc with h | h
        · exact Or.inl (List.mem_cons_of_mem _ h)
        · rcases List.mem_cons.mp h with rfl | h'
          · exact Or.inl (List.mem_cons_self _ _)
          · exact Or.inr h'

lemma splitToBullets_cases (X : String) :
    ∀ item ∈ splitToBullets X, item = "None specified." ∨
      (item ≠ "" ∧ ∃ part : List Char,
        item = pyStrip ⟨part⟩ ∧
        ∀ c ∈ part, c ∈ X.data.map fun ch => if ch = ';' then ',' else ch) := by
  intro item hit
  simp only [splitToBullets] at hit
  split at hit
  · simp only [List.mem_singleton] at hit
    exact Or.inl hit
  · right
    rw [List.mem_filter] at hit
    obtain ⟨hmem, hne⟩ := hit
    rw [List.mem_map] at hmem
    obtain ⟨part, hpart, rfl⟩ := hmem
    refine ⟨by simpa using hne, part, rfl, ?_⟩
    intro c hc
    rcases splitCommaAux_subset _ [] part hpart c hc with h | h
    · exact h
    · simp at h

lemma BFstr_of_all (s : String)
    (h : s.data.all (fun c => !charIsLineBreak c) = true) : BFstr s :=
  fun c hc => by simpa using List.all_eq_true.mp h c hc

lemma splitToBullets_hasNS (X : String) :
    ∀ item ∈ splitToBullets X, hasNonSpace item.data := by
  intro item hit
  rcases splitToBullets_cases X item hit with rfl | ⟨hne, part, rfl, -⟩
  · exact ⟨'N', by decide, by decide⟩
  · apply hasNonSpace_stripChars
    intro hnil
    exact hne ((stringMk_eq_empty_iff _).mpr hnil)

lemma splitToBullets_BF (X : String) (hX : BFstr X) :
    ∀ item ∈ splitToBullets X, BFstr item := by
  intro item hit
  rcases splitToBullets_cases X item hit with rfl | ⟨-, part, rfl, hsub⟩
  · exact BFstr_of_all _ (by decide)
  · intro c hc
    have hcp : c ∈ part := by
      have h1 : c ∈ List.rdropWhile charIsPySpace
          (part.dropWhile charIsPySpace) := hc
      exact (List.dropWhile_sublist _).subset
        ((List.rdropWhile_prefix _ _).subset h1)
    rcases List.mem_map.mp (hsub c hcp) with ⟨c', hc', hcc⟩
    by_cases hsemi : c' = ';'
    · rw [hsemi] at hcc
      simp at hcc
      rw [← hcc]
      decide
    · rw [if_neg hsemi] at hcc
      exact hcc ▸ hX c' hc'

lemma nfr_mem (s : String) :
    ∀ x ∈ defaultNonFunctionalRequirements s,
      x ∈ ["Performance: Must satisfy declared performance expectations.",
           "Reliability: Must handle errors predictably and recover safely.",
           "Security: Must enforce relevant security controls and data protections.",
           "Maintainability: Code and interfaces must remain testable and maintainable.",
           "Maintainability: Implementation must remain testable and readable."] := by
  intro x hx
  rw [defaultNonFunctionalRequirements] at hx
  dsimp only at hx
  split_ifs at hx <;>
    simp only [List.mem_append, List.mem_cons, List.mem_singleton,
      List.not_mem_nil, or_false, false_or] at hx ⊢ <;>
    tauto

lemma numberItems_four (a b c d : String) :
    numberItems [a, b, c, d] =
      ["1. " ++ a, "2. " ++ b, "3. " ++ c, "4. " ++ d] := by
  with_unfolding_all rfl

lemma stringData_append (a b : String) : (a ++ b).data = a.data ++ b.data := rfl

lemma hasNonSpace_append_left (a b : List Char) (h : hasNonSpace a) :
    hasNonSpace (a ++ b) := by
  obtain ⟨c, hc, hcs⟩ := h
  exact ⟨c, List.mem_append_left _ hc, hcs⟩

lemma hasNonSpace_append_right (a b : List Char) (h : hasNonSpace b) :
    hasNonSpace (a ++ b) := by
  obtain ⟨c, hc, hcs⟩ := h
  exact ⟨c, List.mem_append_right _ hc, hcs⟩

lemma hasNonSpace_value (s : String) (h : pyStrip s ≠ "") :
    hasNonSpace s.data :=
  (stripChars_ne_nil_iff _).mp fun hnil =>
    h ((stringMk_eq_empty_iff _).mpr hnil)

/-- Observations about `pre ++ v` where `pre` is a dash-bullet prefix. -/
lemma line_obs_dash2 (pre v : String) (t : List Char)
    (hpre : pre.data = '-' :: ' ' :: t)
    (h : hasNonSpace t ∨ hasNonSpace v.data) :
    (pyStrip (pre ++ v) == "") = false ∧
      startsWithHash (pyStrip (pre ++ v)) = false ∧
      allowedPrefix (pyStrip (pre ++ v)).data = true := by
  apply line_obs_dash (pre ++ v) (t ++ v.data)
  · rw [stringData_append, hpre]
    rfl
  · rcases h with h | h
    · exact hasNonSpace_append_left _ _ h
    · exact hasNonSpace_append_right _ _ h

/-- Observations about `pre ++ v ++ w` where `pre` is a dash-bullet prefix
with a non-space tail. -/
lemma line_obs_dash3 (pre v w : String) (t : List Char)
    (hpre : pre.data = '-' :: ' ' :: t) (h : hasNonSpace t) :
    (pyStrip (pre ++ v ++ w) == "") = false ∧
      startsWithHash (pyStrip (pre ++ v ++ w)) = false ∧
      allowedPrefix (pyStrip (pre ++ v ++ w)).data = true := by
  apply line_obs_dash (pre ++ v ++ w) (t ++ v.data ++ w.data)
  · rw [stringData_append, stringData_append, hpre]
    rfl
  · exact hasNonSpace_append_left _ _ (hasNonSpace_append_left _ _ h)

/-- Observations about `pre ++ v ++ w` where `pre` is a numbered-list
prefix `"N. …"`. -/
lemma line_obs_num3 (pre v w : String) (c1 : Char) (t : List Char)
    (hpre : pre.data = c1 :: '.' :: ' ' :: t)
    (hc1 : c1 = '1' ∨ c1 = '2' ∨ c1 = '3' ∨ c1 = '4') (h : hasNonSpace t) :
    (pyStrip (pre ++ v ++ w) == "") = false ∧
      startsWithHash (pyStrip (pre ++ v ++ w)) = false ∧
      allowedPrefix (pyStrip (pre ++ v ++ w)).data = true := by
  apply line_obs_num c1 (pre ++ v ++ w) (t ++ v.data ++ w.data)
  · rw [stringData_append, stringData_append, hpre]
    rfl
  · exact hc1
  · exact hasNonSpace_append_left _ _ (hasNonSpace_append_left _ _ h)

/-- Observations about `pre ++ v` where `pre` is a numbered-list prefix. -/
lemma line_obs_num2 (pre v : String) (c1 : Char) (t : List Char)
    (hpre : pre.data = c1 :: '.' :: ' ' :: t)
    (hc1 : c1 = '1' ∨ c1 = '2' ∨ c1 = '3' ∨ c1 = '4')
    (h : hasNonSpace t ∨ hasNonSpace v.data) :
    (pyStrip (pre ++ v) == "") = false ∧
      startsWithHash (pyStrip (pre ++ v)) = false ∧
      allowedPrefix (pyStrip (pre ++ v)).data = true := by
  apply line_obs_num c1 (pre ++ v) (t ++ v.data)
  · rw [stringData_append, hpre]
    rfl
  · exact hc1
  · rcases h with h | h
    · exact hasNonSpace_append_left _ _ h
    · exact hasNonSpace_append_right _ _ h

/-- Dash-bullet lines over a list of non-blank items contribute no
headings. -/
lemma filter_hash_map_dash (items : List String)
    (h : ∀ item ∈ items, hasNonSpace item.data) :
    (List.map pyStrip (items.map fun item => "- " ++ item)).filter
      startsWithHash = [] := by
  induction items with
  | nil => rfl
  | cons a t ih =>
      rw [List.map_cons, List.map_cons, List.filter_cons,
        if_neg (by simp [(line_obs_dash2 "- " a [] rfl
          (Or.inr (h a (List.mem_cons_self a t)))).2.1])]
      exact ih fun i hi => h i (List.mem_cons_of_mem _ hi)

lemma dash_ok (item : String) (h : hasNonSpace item.data) :
    allowedPrefix (pyStrip ("- " ++ item)).data = true :=
  (line_obs_dash2 "- " item [] rfl (Or.inr h)).2.2

lemma dash_BF (item : String) (h : BFstr item) : BFstr ("- " ++ item) :=
  BFstr_append (BFstr_of_all _ (by decide)) h

/-! ## Theorems: renderer / validator round trip -/

lemma validateSpecMarkdown_eq (content : String) (L : List String)
    (hL : pySplitLines content = L) :
    validateSpecMarkdown content =
      (if (((L.map pyStrip).filter fun l => !(l == "")).headD "" ==
          "# Project Specification") = true then []
        else ["First non-empty line must be '# Project Specification'."]) ++
      (if ((L.map pyStrip).filter startsWithHash == EXPECTED_HEADINGS) = true
        then []
        else ["Headings must match strict required structure and ordering."]) ++
      lineErrors 1 L := by
  unfold validateSpecMarkdown
  rw [hL]

set_option maxHeartbeats 1000000 in
/-- **C7 (amended).** For every Spec Draft in which all 8 required fields
have non-blank values free of line-break characters (and confidence at
least 0.8, as the claim states — the renderer never reads confidences),
the markdown produced by the renderer passes the structural validator with
an empty error list. -/
theorem render_passes_validator (d : SpecDraft)
    (hnb : ∀ f, pyStrip (getF d f).value ≠ "")
    (hbf : ∀ f, BFstr (getF d f).value)
    (hconf : ∀ f, mkRat 4 5 ≤ (getF d f).confidence) :
    validateSpecMarkdown (renderSpecMarkdown d) = [] := by
  clear hconf
  have hNS : ∀ f, hasNonSpace (getF d f).value.data := fun f =>
    hasNonSpace_value _ (hnb f)
  have hA1 := line_obs_dash2 "- Project Name: " d.project_name.value _ rfl
    (Or.inl (by decide))
  have hA2 := line_obs_dash2 "- Project Type: " d.project_type.value _ rfl
    (Or.inl (by decide))
  have hA3 := line_obs_dash2 "- Primary Goal: " d.primary_goal.value _ rfl
    (Or.inl (by decide))
  have hA4 := line_obs_dash2 "- Target Users: " d.target_users.value _ rfl
    (Or.inl (by decide))
  have hB := line_obs_dash3
    "- The current workflow does not reliably satisfy this objective: "
    d.primary_goal.value "." _ rfl (by decide)
  have hC1 := line_obs_num2 "1. "
    ("The system SHALL accept and validate the defined inputs: " ++
      d.inputs.value ++ ".") '1' _ rfl (by decide)
    (Or.inr (hasNonSpace_append_left _ _ (hasNonSpace_append_left _ _ (by decide))))
  have hC2 := line_obs_num2 "2. "
    ("The system SHALL produce outputs in the defined format: " ++
      d.outputs.value ++ ".") '2' _ rfl (by decide)
    (Or.inr (hasNonSpace_append_left _ _ (hasNonSpace_append_left _ _ (by decide))))
  have hC3 := line_obs_num2 "3. "
    ("The system SHALL implement behavior that directly supports this goal: " ++
      d.primary_goal.value ++ ".") '3' _ rfl (by decide)
    (Or.inr (hasNonSpace_append_left _ _ (hasNonSpace_append_left _ _ (by decide))))
  have hD1 := line_obs_dash2 "- " d.inputs.value _ rfl (Or.inr (hNS .inputs))
  have hD2 := line_obs_dash2 "- " d.outputs.value _ rfl (Or.inr (hNS .outputs))
  have hD3 := line_obs_dash2 "- " d.constraints.value _ rfl
    (Or.inr (hNS .constraints))
  have hE1 := line_obs_dash2 "- "
    ("`" ++ d.project_name.value ++ "` generates the expected output: " ++
      d.outputs.value ++ ".") _ rfl
    (Or.inr (hasNonSpace_append_left _ _ (hasNonSpace_append_left _ _
      (hasNonSpace_append_left _ _ (hasNonSpace_append_left _ _ (by decide))))))
  have hXin : BFstr ("Deliver core " ++ d.project_type.value ++
      " behavior aligned to goal: " ++ d.primary_goal.value ++
      ". Support primary user group: " ++ d.target_users.value ++
      ". Handle defined inputs and produce defined outputs.") :=
    BFstr_append (BFstr_append (BFstr_append (BFstr_append (BFstr_append
      (BFstr_append (BFstr_of_all _ (by decide)) (hbf .project_type))
      (BFstr_of_all _ (by decide))) (hbf .primary_goal))
      (BFstr_of_all _ (by decide))) (hbf .target_users))
      (BFstr_of_all _ (by decide))
  have hnfr : ∀ x ∈ defaultNonFunctionalRequirements d.constraints.value,
      hasNonSpace x.data ∧ BFstr x := by
    intro x hx
    have hm := nfr_mem _ x hx
    fin_cases hm <;> exact ⟨by decide, BFstr_of_all _ (by decide)⟩
  have hboth : ∀ s ∈ renderSections d,
      BFstr s ∧ ((pyStrip s == "") = true ∨
        allowedPrefix (pyStrip s).data = true) := by
    intro s hs
    rw [renderSections] at hs
    rw [defaultFunctionalRequirements, numberItems_four,
      defaultAcceptanceCriteria] at hs
    simp only [List.cons_append, List.nil_append, List.mem_append,
      List.mem_cons, List.map_cons, List.map_nil, List.mem_map,
      List.mem_singleton, List.not_mem_nil, or_false] at hs
    rcases hs with rfl|rfl|rfl|rfl|rfl|rfl|rfl|rfl|rfl|rfl|rfl|rfl|rfl|
      (((((((⟨i,hi,rfl⟩|rfl|rfl)|⟨i,hi,rfl⟩)|rfl|rfl)|rfl|rfl|rfl|rfl)|rfl|rfl)|
        ⟨i,hi,rfl⟩)|rfl|rfl|rfl|rfl|rfl|rfl|rfl|rfl|rfl|rfl|rfl|rfl|rfl|rfl|rfl)|
      rfl|rfl|rfl
    exacts
      [⟨BFstr_of_all _ (by decide), Or.inr (by decide)⟩,
       ⟨BFstr_of_all _ (by decide), Or.inl (by decide)⟩,
       ⟨BFstr_of_all _ (by decide), Or.inr (by decide)⟩,
       ⟨BFstr_append (BFstr_of_all _ (by decide)) (hbf .project_name), Or.inr hA1.2.2⟩,
       ⟨BFstr_append (BFstr_of_all _ (by decide)) (hbf .project_type), Or.inr hA2.2.2⟩,
       ⟨BFstr_append (BFstr_of_all _ (by decide)) (hbf .primary_goal), Or.inr hA3.2.2⟩,
       ⟨BFstr_append (BFstr_of_all _ (by decide)) (hbf .target_users), Or.inr hA4.2.2⟩,
       ⟨BFstr_of_all _ (by decide), Or.inl (by decide)⟩,
       ⟨BFstr_of_all _ (by decide), Or.inr (by decide)⟩,
       ⟨BFstr_append (BFstr_append (BFstr_of_all _ (by decide)) (hbf .primary_goal))
          (BFstr_of_all _ (by decide)), Or.inr hB.2.2⟩,
       ⟨BFstr_of_all _ (by decide), Or.inl (by decide)⟩,
       ⟨BFstr_of_all _ (by decide), Or.inr (by decide)⟩,
       ⟨BFstr_of_all _ (by decide), Or.inr (by decide)⟩,
       ⟨dash_BF i (splitToBullets_BF _ hXin i hi),
          Or.inr (dash_ok i (splitToBullets_hasNS _ i hi))⟩,
       ⟨BFstr_of_all _ (by decide), Or.inl (by decide)⟩,
       ⟨BFstr_of_all _ (by decide), Or.inr (by decide)⟩,
       ⟨dash_BF i (splitToBullets_BF _ (hbf .non_goals) i hi),
          Or.inr (dash_ok i (splitToBullets_hasNS _ i hi))⟩,
       ⟨BFstr_of_all _ (by decide), Or.inl (by decide)⟩,
       ⟨BFstr_of_all _ (by decide), Or.inr (by decide)⟩,
       ⟨BFstr_append (BFstr_of_all _ (by decide)) (BFstr_append (BFstr_append
          (BFstr_of_all _ (by decide)) (hbf .inputs)) (BFstr_of_all _ (by decide))),
          Or.inr hC1.2.2⟩,
       ⟨BFstr_append (BFstr_of_all _ (by decide)) (BFstr_append (BFstr_append
          (BFstr_of_all _ (by decide)) (hbf .outputs)) (BFstr_of_all _ (by decide))),
          Or.inr hC2.2.2⟩,
       ⟨BFstr_append (BFstr_of_all _ (by decide)) (BFstr_append (BFstr_append
          (BFstr_of_all _ (by decide)) (hbf .primary_goal)) (BFstr_of_all _ (by decide))),
          Or.inr hC3.2.2⟩,
       ⟨BFstr_of_all _ (by decide), Or.inr (by decide)⟩,
       ⟨BFstr_of_all _ (by decide), Or.inl (by decide)⟩,
       ⟨BFstr_of_all _ (by decide), Or.inr (by decide)⟩,
       ⟨dash_BF i (hnfr i hi).2, Or.inr (dash_ok i (hnfr i hi).1)⟩,
       ⟨BFstr_of_all _ (by decide), Or.inl (by decide)⟩,
       ⟨BFstr_of_all _ (by decide), Or.inr (by decide)⟩,
       ⟨BFstr_append (BFstr_of_all _ (by decide)) (hbf .inputs), Or.inr hD1.2.2⟩,
       ⟨BFstr_of_all _ (by decide), Or.inl (by decide)⟩,
       ⟨BFstr_of_all _ (by decide), Or.inr (by decide)⟩,
       ⟨BFstr_append (BFstr_of_all _ (by decide)) (hbf .outputs), Or.inr hD2.2.2⟩,
       ⟨BFstr_of_all _ (by decide), Or.inl (by decide)⟩,
       ⟨BFstr_of_all _ (by decide), Or.inr (by decide)⟩,
       ⟨BFstr_append (BFstr_of_all _ (by decide)) (hbf .constraints), Or.inr hD3.2.2⟩,
       ⟨BFstr_of_all _ (by decide), Or.inl (by decide)⟩,
       ⟨BFstr_of_all _ (by decide), Or.inr (by decide)⟩,
       ⟨BFstr_of_all _ (by decide), Or.inr (by decide)⟩,
       ⟨BFstr_of_all _ (by decide), Or.inr (by decide)⟩,
       ⟨BFstr_of_all _ (by decide), Or.inl (by decide)⟩,
       ⟨BFstr_of_all _ (by decide), Or.inr (by decide)⟩,
       ⟨dash_BF _ (BFstr_append (BFstr_append (BFstr_append (BFstr_append
          (BFstr_of_all _ (by decide)) (hbf .project_name)) (BFstr_of_all _ (by decide)))
          (hbf .outputs)) (BFstr_of_all _ (by decide))), Or.inr hE1.2.2⟩,
       ⟨BFstr_of_all _ (by decide), Or.inr (by decide)⟩,
       ⟨BFstr_of_all _ (by decide), Or.inr (by decide)⟩]
  have hne : renderSections d ≠ [] := by
    rw [renderSections]
    exact List.cons_ne_nil _ _
  have hmIn := filter_hash_map_dash _ (splitToBullets_hasNS
    ("Deliver core " ++ d.project_type.value ++ " behavior aligned to goal: " ++
      d.primary_goal.value ++ ". Support primary user group: " ++
      d.target_users.value ++ ". Handle defined inputs and produce defined outputs."))
  have hmOut := filter_hash_map_dash _ (splitToBullets_hasNS d.non_goals.value)
  have hmNfr := filter_hash_map_dash
    (defaultNonFunctionalRequirements d.constraints.value)
    (fun i hi => (hnfr i hi).1)
  have hheads : ((renderSections d).map pyStrip).filter startsWithHash =
      EXPECTED_HEADINGS := by
    rw [renderSections, defaultFunctionalRequirements, numberItems_four,
      defaultAcceptanceCriteria]
    simp only [List.cons_append, List.nil_append, List.map_append,
      List.map_cons, List.map_nil, List.filter_append, List.filter_cons,
      List.filter_nil, hmIn, hmOut, hmNfr, hA1.2.1, hA2.2.1, hA3.2.1,
      hA4.2.1, hB.2.1, hC1.2.1, hC2.2.1, hC3.2.1, hD1.2.1, hD2.2.1, hD3.2.1,
      hE1.2.1, Bool.false_eq_true, if_false]
    decide
  have hfirst : ((((renderSections d).map pyStrip).filter
      fun l => !(l == "")).headD "") = "# Project Specification" := by
    rw [renderSections]
    simp only [List.cons_append]
    rw [List.map_cons, List.filter_cons, if_pos (by decide)]
    simp only [List.headD_cons]
    decide
  rw [validateSpecMarkdown_eq (renderSpecMarkdown d) (renderSections d)
    (pySplitLines_join (renderSections d) hne fun s hs => (hboth s hs).1)]
  rw [hfirst, hheads, lineErrors_nil _ (fun s hs => (hboth s hs).2) 1]
  decide

/-- A draft whose fields are all non-empty with confidence 1.0, but whose
primary goal contains a newline. -/
def newlineDraft : SpecDraft :=
  { project_name := ⟨"A", 1, "t"⟩, project_type := ⟨"B", 1, "t"⟩,
    primary_goal := ⟨"a\nb", 1, "t"⟩, target_users := ⟨"C", 1, "t"⟩,
    inputs := ⟨"D", 1, "t"⟩, outputs := ⟨"E", 1, "t"⟩,
    constraints := ⟨"F", 1, "t"⟩, non_goals := ⟨"G", 1, "t"⟩ }

/-- A draft whose fields are all non-empty with confidence 1.0, but whose
inputs value is a single space. -/
def whitespaceDraft : SpecDraft :=
  { project_name := ⟨"A", 1, "t"⟩, project_type := ⟨"B", 1, "t"⟩,
    primary_goal := ⟨"C", 1, "t"⟩, target_users := ⟨"D", 1, "t"⟩,
    inputs := ⟨" ", 1, "t"⟩, outputs := ⟨"E", 1, "t"⟩,
    constraints := ⟨"F", 1, "t"⟩, non_goals := ⟨"G", 1, "t"⟩ }

set_option maxRecDepth 8000 in
/-- **C7 counterexample.** The claim quantifies over every draft with
non-empty values and confidence ≥ 0.8, but two such drafts fail
validation: a value containing a newline splits into an extra prose line,
and a whitespace-only value renders a bare `"-"` bullet; in both cases the
validator reports errors. -/
theorem render_validator_counterexample :
    (∀ f, (getF newlineDraft f).value ≠ "" ∧
      mkRat 4 5 ≤ (getF newlineDraft f).confidence) ∧
    validateSpecMarkdown (renderSpecMarkdown newlineDraft) ≠ [] ∧
    (∀ f, (getF whitespaceDraft f).value ≠ "" ∧
      mkRat 4 5 ≤ (getF whitespaceDraft f).confidence) ∧
    validateSpecMarkdown (renderSpecMarkdown whitespaceDraft) ≠ [] := by
  refine ⟨by decide, by decide, by decide, by decide⟩

/-- A fully populated, high-confidence draft with ordinary values. -/
def csvGuardDraft : SpecDraft :=
  { project_name := ⟨"CSV Guard", 1, "t"⟩,
    project_type := ⟨"CLI tool", 1, "t"⟩,
    primary_goal := ⟨"Validate CSV files.", 1, "t"⟩,
    target_users := ⟨"Developers.", 1, "t"⟩,
    inputs := ⟨"CLI args and CSV file paths.", 1, "t"⟩,
    outputs := ⟨"Terminal validation report.", 1, "t"⟩,
    constraints := ⟨"Python 3.10+.", 1, "t"⟩,
    non_goals := ⟨"No GUI.", 1, "t"⟩ }

/-- Witness for `render_passes_validator` at a concrete fully populated
draft. -/
theorem render_passes_validator_witness :
    validateSpecMarkdown (renderSpecMarkdown csvGuardDraft) = [] :=
  render_passes_validator csvGuardDraft (by decide) (by decide) (by decide)

/-! ## Lemmas and theorems: the coercion transform -/

lemma splitLinesAux_BF :
    ∀ (input : List Char) (prevCR : Bool) (acc : List Char),
      (∀ c ∈ acc, charIsLineBreak c = false) →
      ∀ l ∈ splitLinesAux prevCR input acc, ∀ c ∈ l,
        charIsLineBreak c = false := by
  intro input
  induction input with
  | nil =>
      intro prevCR acc hacc l hl c hc
      rw [splitLinesAux] at hl
      split at hl
      · simp at hl
      · simp only [List.mem_singleton] at hl
        subst hl
        exact hacc c (List.mem_reverse.mp hc)
  | cons a rest ih =>
      intro prevCR acc hacc l hl c hc
      rw [splitLinesAux] at hl
      by_cases h1 : a = '\n'
      · rw [if_pos h1] at hl
        by_cases h2 : prevCR = true
        · rw [if_pos h2] at hl
          exact ih false acc hacc l hl c hc
        · rw [if_neg h2] at hl
          rcases List.mem_cons.mp hl with rfl | hl'
          · exact hacc c (List.mem_reverse.mp hc)
          · exact ih false [] (by simp) l hl' c hc
      · rw [if_neg h1] at hl
        by_cases h2 : a = '\r'
        · rw [if_pos h2] at hl
          rcases List.mem_cons.mp hl with rfl | hl'
          · exact hacc c (List.mem_reverse.mp hc)
          · exact ih true [] (by simp) l hl' c hc
        · rw [if_neg h2] at hl
          by_cases h3 : charIsLineBreak a = true
          · rw [if_pos h3] at hl
            rcases List.mem_cons.mp hl with rfl | hl'
            · exact hacc c (List.mem_reverse.mp hc)
            · exact ih false [] (by simp) l hl' c hc
          · rw [if_neg h3] at hl
            refine ih false (a :: acc) ?_ l hl c hc
            intro e he
            rcases List.mem_cons.mp he with rfl | he'
            · simpa using h3
            · exact hacc e he'

lemma pySplitLines_BF (s : String) : ∀ l ∈ pySplitLines s, BFstr l := by
  intro l hl
  rw [pySplitLines] at hl
  rcases List.mem_map.mp hl with ⟨m, hm, rfl⟩
  intro c hc
  exact splitLinesAux_BF s.data false [] (by simp) m hm c hc

lemma stripChars_subset (l : List Char) : ∀ c ∈ stripChars l, c ∈ l :=
  fun c hc =>
    (List.dropWhile_sublist _).subset ((List.rdropWhile_prefix _ _).subset hc)

lemma BFstr_pyStrip (s : String) (h : BFstr s) : BFstr (pyStrip s) :=
  fun c hc => h c (stripChars_subset _ c hc)

lemma hasNonSpace_pyStrip (s : String) (h : pyStrip s ≠ "") :
    hasNonSpace (pyStrip s).data :=
  hasNonSpace_stripChars s.data fun hnil =>
    h ((stringMk_eq_empty_iff _).mpr hnil)

lemma startsWithHash_allowed (s : String) (h : startsWithHash s = true) :
    allowedPrefix s.data = true := by
  unfold startsWithHash at h
  split at h
  · rename_i heq
    rw [heq]
    rfl
  · exact absurd h (by simp)

lemma coerceLine_cases (raw : String) :
    (pyStrip raw = "" ∧ coerceLine raw = raw) ∨
    (allowedPrefix (pyStrip raw).data = true ∧ coerceLine raw = raw) ∨
    (pyStrip raw ≠ "" ∧ allowedPrefix (pyStrip raw).data = false ∧
      coerceLine raw = "- " ++ pyStrip raw) := by
  unfold coerceLine
  by_cases h1 : (pyStrip raw == "") = true
  · exact Or.inl ⟨by simpa using h1, by simp [h1]⟩
  · by_cases h2 : allowedPrefix (pyStrip raw).data = true
    · exact Or.inr (Or.inl ⟨h2, by simp [h1, h2]⟩)
    · exact Or.inr (Or.inr ⟨by simpa using h1, by simpa using h2,
        by simp [h1, h2]⟩)

lemma pyStrip_coerceLine_blank (raw : String) (h : pyStrip raw = "") :
    coerceLine raw = raw := by
  unfold coerceLine
  simp [h]

lemma headings_coerce (L : List String) :
    ((L.map coerceLine).map pyStrip).filter startsWithHash =
      (L.map pyStrip).filter startsWithHash := by
  induction L with
  | nil => rfl
  | cons a t ih =>
      simp only [List.map_cons, List.filter_cons]
      rcases coerceLine_cases a with ⟨-, hc⟩ | ⟨-, hc⟩ | ⟨hne, hall, hc⟩
      · rw [hc, ih]
      · rw [hc, ih]
      · rw [hc, ih,
          (line_obs_dash2 "- " (pyStrip a) [] rfl
            (Or.inr (hasNonSpace_pyStrip a hne))).2.1]
        have hsa : startsWithHash (pyStrip a) = false := by
          cases hs : startsWithHash (pyStrip a)
          · rfl
          · exact absurd (startsWithHash_allowed _ hs) (by simp [hall])
        rw [hsa]
        simp

lemma firstNonEmpty_coerce (L : List String)
    (h : (((L.map pyStrip).filter fun l => !(l == "")).headD "") =
      "# Project Specification") :
    ((((L.map coerceLine).map pyStrip).filter fun l => !(l == "")).headD "") =
      "# Project Specification" := by
  induction L with
  | nil => exact h
  | cons a t ih =>
      simp only [List.map_cons, List.filter_cons] at h ⊢
      by_cases hb : (pyStrip a == "") = true
      · rw [pyStrip_coerceLine_blank a (by simpa using hb)]
        rw [hb] at h ⊢
        simp only [Bool.not_true, if_false] at h ⊢
        exact ih h
      · rw [(show (!(pyStrip a == "")) = true by simp [hb])] at h
        simp only [if_true, List.headD_cons] at h
        have hall : allowedPrefix (pyStrip a).data = true := by
          rw [h]
          decide
        rcases coerceLine_cases a with ⟨hblank, hc⟩ | ⟨-, hc⟩ | ⟨-, hfalse, -⟩
        · exact absurd hblank (by simpa using hb)
        · rw [hc, (show (!(pyStrip a == "")) = true by simp [hb])]
          simpa using h
        · exact absurd hall (by simp [hfalse])

/-- **C8.** The coercion transform (modelled from the spec, the function
being absent from the source tree) rewrites each prose body line — a
non-blank line whose stripped form starts with neither a heading marker,
a dash bullet, nor a numbered-list marker — into a dash-bullet line, and
preserves blank lines and conforming lines (numbered-list lines included)
verbatim; and for a document whose first non-blank line is the title
heading and whose heading lines match the expected skeleton, validating
the coerced output yields zero errors. -/
theorem coerce_to_list_markdown_spec :
    (∀ raw : String,
      (pyStrip raw ≠ "" → allowedPrefix (pyStrip raw).data = false →
        coerceLine raw = "- " ++ pyStrip raw) ∧
      (allowedPrefix (pyStrip raw).data = true → coerceLine raw = raw) ∧
      (pyStrip raw = "" → coerceLine raw = raw)) ∧
    ∀ content : String,
      ((((pySplitLines content).map pyStrip).filter
        fun l => !(l == "")).headD "") = "# Project Specification" →
      (((pySplitLines content).map pyStrip).filter startsWithHash) =
        EXPECTED_HEADINGS →
      validateSpecMarkdown (coerceToListMarkdown content) = [] := by
  constructor
  · intro raw
    refine ⟨?_, ?_, ?_⟩
    · intro h1 h2
      rcases coerceLine_cases raw with ⟨hb, -⟩ | ⟨ha, -⟩ | ⟨-, -, hc⟩
      · exact absurd hb h1
      · exact absurd ha (by simp [h2])
      · exact hc
    · intro h
      rcases coerceLine_cases raw with ⟨-, hc⟩ | ⟨-, hc⟩ | ⟨-, hfalse, -⟩
      · exact hc
      · exact hc
      · exact absurd h (by simp [hfalse])
    · exact pyStrip_coerceLine_blank raw
  · intro content hfirst hheads
    have hLne : pySplitLines content ≠ [] := by
      intro h
      rw [h] at hfirst
      exact absurd hfirst (by decide)
    have hbf : ∀ s ∈ (pySplitLines content).map coerceLine, BFstr s := by
      intro s hs
      rcases List.mem_map.mp hs with ⟨raw, hraw, rfl⟩
      rcases coerceLine_cases raw with ⟨-, hc⟩ | ⟨-, hc⟩ | ⟨-, -, hc⟩
      · rw [hc]; exact pySplitLines_BF content raw hraw
      · rw [hc]; exact pySplitLines_BF content raw hraw
      · rw [hc]
        exact BFstr_append (BFstr_of_all _ (by decide))
          (BFstr_pyStrip raw (pySplitLines_BF content raw hraw))
    have hok : ∀ s ∈ (pySplitLines content).map coerceLine,
        (pyStrip s == "") = true ∨ allowedPrefix (pyStrip s).data = true := by
      intro s hs
      rcases List.mem_map.mp hs with ⟨raw, hraw, rfl⟩
      rcases coerceLine_cases raw with ⟨hb, hc⟩ | ⟨ha, hc⟩ | ⟨hne, -, hc⟩
      · rw [hc]; exact Or.inl (by simp [hb])
      · rw [hc]; exact Or.inr ha
      · rw [hc]
        exact Or.inr (dash_ok (pyStrip raw) (hasNonSpace_pyStrip raw hne))
    rw [validateSpecMarkdown_eq (coerceToListMarkdown content)
      ((pySplitLines content).map coerceLine)
      (pySplitLines_join _ (by simpa using hLne) hbf)]
    rw [firstNonEmpty_coerce _ hfirst, headings_coerce, hheads,
      lineErrors_nil _ hok 1]
    decide

/-- The coercion test document from the repository's test suite: valid
headings with prose bodies and one numbered line. -/
def coercionTestDoc : String :=
  "# Project Specification\n\n## 1. Overview\nPlain prose line.\n## 2. Problem Statement\nAnother prose line.\n## 3. Scope\n### In Scope\nThing one\n### Out of Scope\nThing two\n## 4. Functional Requirements\n1. Keep this number.\n## 5. Non-Functional Requirements\nReliability text.\n## 6. Inputs\nInput text.\n## 7. Outputs\nOutput text.\n## 8. Constraints\nConstraint text.\n## 9. Assumptions\nAssumption text.\n## 10. Acceptance Criteria\nCriteria text.\n"

set_option maxRecDepth 8000 in
/-- Witness for `coerce_to_list_markdown_spec`: a prose line becomes a
bullet, a numbered line is preserved verbatim, and the coerced test
document validates cleanly. -/
theorem coerce_to_list_markdown_spec_witness :
    coerceLine "This is free prose." = "- " ++ pyStrip "This is free prose." ∧
    coerceLine "1. Keep this number." = "1. Keep this number." ∧
    validateSpecMarkdown (coerceToListMarkdown coercionTestDoc) = [] :=
  ⟨(coerce_to_list_markdown_spec.1 "This is free prose.").1 (by decide)
      (by decide),
   (coerce_to_list_markdown_spec.1 "1. Keep this number.").2.1 (by decide),
   coerce_to_list_markdown_spec.2 coercionTestDoc (by decide) (by decide)⟩

/-! ## Lemmas about field access and the gap-resolution loop -/

lemma getF_setF_same (d : SpecDraft) (f : FieldName) (c : FieldCandidate) :
    getF (setF d f c) f = c := by
  cases f <;> rfl

lemma getF_setF_ne (d : SpecDraft) (f g : FieldName) (c : FieldCandidate)
    (h : g ≠ f) : getF (setF d f c) g = getF d g := by
  cases f <;> cases g <;> first | rfl | exact absurd rfl h

lemma gapStep_getF_ne (genQ : FieldName → SpecDraft → String)
    (ask : String → String) (d : SpecDraft) (f g : FieldName) (h : g ≠ f) :
    getF (gapStep genQ ask d f) g = getF d g := by
  unfold gapStep
  dsimp only
  split
  · rfl
  · exact getF_setF_ne _ _ _ _ h

lemma needsAnswer_congr {d d' : SpecDraft} (f : FieldName)
    (h : getF d f = getF d' f) : needsAnswer d f = needsAnswer d' f := by
  simp only [needsAnswer, h]

/-- The fields asked about by the loop body are exactly the fields of the
remaining list that need an answer in the initial draft, truncated by the
remaining follow-up budget.  The agreement hypothesis records that the
loop never revisits a field, so the visit-time candidate is the initial
one. -/
lemma resolveGapsAux_asked (genQ : FieldName → SpecDraft → String)
    (ask : String → String) (d0 : SpecDraft) (fs : List FieldName) :
    ∀ (d : SpecDraft) (count : Nat), fs.Nodup →
      (∀ f ∈ fs, getF d f = getF d0 f) →
      (resolveGapsAux genQ ask none fs d count).asked =
          fs.filter (needsAnswer d0) ∧
        ∀ m, (resolveGapsAux genQ ask (some m) fs d count).asked =
          (fs.filter (needsAnswer d0)).take (m - count) := by
  induction fs with
  | nil =>
      intro d count _ _
      constructor
      · rfl
      · intro m; simp [resolveGapsAux]
  | cons f rest ih =>
      intro d count hnd hagree
      have hf : getF d f = getF d0 f := hagree f (List.mem_cons_self f rest)
      have hna : needsAnswer d f = needsAnswer d0 f := needsAnswer_congr f hf
      have hfrest : f ∉ rest := (List.nodup_cons.mp hnd).1
      have hndrest : rest.Nodup := (List.nodup_cons.mp hnd).2
      cases hneed : needsAnswer d0 f with
      | false =>
          have hrest : ∀ g ∈ rest, getF d g = getF d0 g := fun g hg =>
            hagree g (List.mem_cons_of_mem f hg)
          have hih := ih d count hndrest hrest
          constructor
          · rw [show resolveGapsAux genQ ask none (f :: rest) d count =
                resolveGapsAux genQ ask none rest d count by
                  simp [resolveGapsAux, capReached, hna, hneed]]
            rw [hih.1, List.filter_cons_of_neg (by simp [hneed])]
          · intro m
            by_cases hcap : m ≤ count
            · rw [show resolveGapsAux genQ ask (some m) (f :: rest) d count =
                  { draft := d, asked := [] } by
                    simp [resolveGapsAux, capReached, hcap]]
              rw [Nat.sub_eq_zero_of_le hcap, List.take_zero]
            · rw [show resolveGapsAux genQ ask (some m) (f :: rest) d count =
                  resolveGapsAux genQ ask (some m) rest d count by
                    simp [resolveGapsAux, capReached, hcap, hna, hneed]]
              rw [(hih.2) m, List.filter_cons_of_neg (by simp [hneed])]
      | true =>
          have hrest : ∀ g ∈ rest,
              getF (gapStep genQ ask d f) g = getF d0 g := fun g hg =>
            (gapStep_getF_ne genQ ask d f g fun he =>
              hfrest (he ▸ hg)).trans (hagree g (List.mem_cons_of_mem f hg))
          have hih := ih (gapStep genQ ask d f) (count + 1) hndrest hrest
          constructor
          · rw [show resolveGapsAux genQ ask none (f :: rest) d count =
                { draft := (resolveGapsAux genQ ask none rest
                    (gapStep genQ ask d f) (count + 1)).draft,
                  asked := f :: (resolveGapsAux genQ ask none rest
                    (gapStep genQ ask d f) (count + 1)).asked } by
                  simp [resolveGapsAux, capReached, hna, hneed]]
            rw [List.filter_cons_of_pos (by simp [hneed])]
            simp [hih.1]
          · intro m
            by_cases hcap : m ≤ count
            · rw [show resolveGapsAux genQ ask (some m) (f :: rest) d count =
                  { draft := d, asked := [] } by
                    simp [resolveGapsAux, capReached, hcap]]
              rw [Nat.sub_eq_zero_of_le hcap, List.take_zero]
            · rw [show resolveGapsAux genQ ask (some m) (f :: rest) d count =
                  { draft := (resolveGapsAux genQ ask (some m) rest
                      (gapStep genQ ask d f) (count + 1)).draft,
                    asked := f :: (resolveGapsAux genQ ask (some m) rest
                      (gapStep genQ ask d f) (count + 1)).asked } by
                    simp [resolveGapsAux, capReached, hcap, hna, hneed]]
              rw [List.filter_cons_of_pos (by simp [hneed])]
              have hmc : m - count = (m - (count + 1)) + 1 := by omega
              rw [hmc, List.take_succ_cons]
              simp [hih.2 m]

/-! ## Theorems: the `"Build something"` scenario -/

/-- **C1 counterexample.** The claim asserts that for the prompt
`"Build something"` every one of the 8 required fields ends up in
`missing_fields`.  In fact `project_type` does not: `_infer_project_type`
tests `term in lowered` by substring, and `"ui"` is a substring of
`"build"`, so the type is inferred as `"frontend UI"` at confidence 0.7,
which clears the 0.5 threshold.  (`project_name` is likewise inferred at
0.55.) -/
theorem buildSomething_not_all_missing :
    "project_type" ∉ missingFields (parsePrompt "Build something") := by
  decide

/-- **C1 (amended).** For the prompt `"Build something"` with the heuristic
strategy in non-interactive mode, exactly six fields end up in
`missing_fields` — all except `project_type` (inferred `"frontend UI"` at
confidence 0.7, because `"ui"` occurs inside `"build"`) and `project_name`
(inferred `"Build Something"` at confidence 0.55); `primary_goal` is missing
since its excerpt fallback has confidence 0.4 < 0.5.  The run exits with
code 1 and stderr lists those six field names. -/
theorem buildSomething_run :
    generateSpecNonInteractive "Build something" =
      (1, "Missing required information: primary_goal, target_users, inputs, outputs, constraints, non_goals\n") ∧
    missingFields (parsePrompt "Build something") =
      ["primary_goal", "target_users", "inputs", "outputs", "constraints",
        "non_goals"] ∧
    getF (parsePrompt "Build something") .project_type =
      { value := "frontend UI", confidence := mkRat 7 10,
        rationale := "keyword_inference" } ∧
    getF (parsePrompt "Build something") .project_name =
      { value := "Build Something", confidence := mkRat 11 20,
        rationale := "title_inference" } := by
  refine ⟨by decide, by decide, by decide, by decide⟩

/-! ## Theorems: the gap-resolution loop -/

/-- **C4 counterexample.** The claim's "asked if and only if blank or
below 0.8" fails for capped runs: in a run with the follow-up cap 3 (the
cap `build_spec_draft` selects for an LLM-backed strategy) on a fully
empty draft, `target_users` still has a blank value — so under the claim
it should be asked about — yet no follow-up is asked for it, the cap
having been exhausted by the first three fields. -/
theorem capped_run_skips_needy_field :
    (pyStrip (getF (resolveGaps localFollowup (fun _ => "answer")
        (some 3) {}).draft .target_users).value == "") = true ∧
    needsAnswer ({} : SpecDraft) .target_users = true ∧
    FieldName.target_users ∉
      (resolveGaps localFollowup (fun _ => "answer") (some 3) {}).asked := by
  refine ⟨by decide, by decide, by decide⟩

/-- **C4 (amended).** In an uncapped run of the Gap-Resolution Loop (the
heuristic strategy's case) a follow-up is asked for a field if and only if
its value is blank or its confidence is below 0.8, each field is visited
at most once, in the fixed required-field order; in a capped run only the
first `m` such fields are asked about.  In both cases a field with
non-blank value and confidence ≥ 0.8 is never asked about (it is not in
the filtered list).  The needy test refers to the field's candidate at
visit time, which equals its initial candidate since fields are never
revisited. -/
theorem gap_loop_asked_iff_needy (genQ : FieldName → SpecDraft → String)
    (ask : String → String) (d : SpecDraft) :
    (resolveGaps genQ ask none d).asked =
        REQUIRED_FIELDS.filter (needsAnswer d) ∧
      ∀ m, (resolveGaps genQ ask (some m) d).asked =
        (REQUIRED_FIELDS.filter (needsAnswer d)).take m := by
  have h := resolveGapsAux_asked genQ ask d REQUIRED_FIELDS d 0
    (by decide) (fun _ _ => rfl)
  exact ⟨h.1, fun m => by simpa using h.2 m⟩

/-- **C5.** When the ask function's answer for a field strips to the empty
string, the loop body leaves the draft exactly as it was: the field's
candidate (value, confidence and rationale) is untouched and no other
field is modified by that step. -/
theorem empty_answer_leaves_draft_unchanged
    (genQ : FieldName → SpecDraft → String) (ask : String → String)
    (d : SpecDraft) (f : FieldName)
    (h : pyStrip (ask (genQ f d)) = "") :
    gapStep genQ ask d f = d := by
  unfold gapStep
  simp [h]

/-- Witness for `empty_answer_leaves_draft_unchanged` at a concrete
whitespace-only answer. -/
theorem empty_answer_leaves_draft_unchanged_witness :
    gapStep localFollowup (fun _ => "   ") {} .inputs = {} :=
  empty_answer_leaves_draft_unchanged localFollowup (fun _ => "   ") {}
    .inputs (by decide)

/-- **C6.** A gap-resolution run under the cap `build_spec_draft` selects
for an LLM-backed strategy (`capFor`, i.e. 3) asks at most 3 follow-ups in
total, whatever the draft and ask function; a heuristic-strategy run is
uncapped: it asks one follow-up for every field below the acceptance
threshold, however many there are (e.g. all 8 on an empty draft). -/
theorem llm_capped_heuristic_uncapped (p : Provider)
    (ask : String → String) (d : SpecDraft) :
    (p.isLLM = true →
      (resolveGaps p.genFollowup ask (capFor p) d).asked.length ≤ 3) ∧
    (p.isLLM = false →
      (resolveGaps p.genFollowup ask (capFor p) d).asked.length =
        (REQUIRED_FIELDS.filter (needsAnswer d)).length) := by
  have h := resolveGapsAux_asked p.genFollowup ask d REQUIRED_FIELDS d 0
    (by decide) (fun _ _ => rfl)
  constructor
  · intro hp
    rw [show capFor p = some 3 by simp [capFor, hp]]
    rw [resolveGaps, show (3 : Nat) = 3 - 0 by rfl, h.2 3]
    exact (List.length_take_le _ _).trans (by norm_num)
  · intro hp
    rw [show capFor p = none by simp [capFor, hp]]
    rw [resolveGaps, h.1]

/-- Witness for `llm_capped_heuristic_uncapped`: an LLM-flagged provider
on the empty draft asks 3 follow-ups; the heuristic provider asks 8. -/
theorem llm_capped_heuristic_uncapped_witness :
    (resolveGaps (Provider.mk true parsePrompt localFollowup id).genFollowup
        (fun _ => "") (capFor (Provider.mk true parsePrompt localFollowup id))
        {}).asked.length ≤ 3 ∧
    (resolveGaps localProvider.genFollowup (fun _ => "")
        (capFor localProvider) {}).asked.length =
      (REQUIRED_FIELDS.filter (needsAnswer {})).length :=
  ⟨(llm_capped_heuristic_uncapped
      (Provider.mk true parsePrompt localFollowup id) (fun _ => "") {}).1 rfl,
   (llm_capped_heuristic_uncapped localProvider (fun _ => "") {}).2 rfl⟩

/-! ## Theorems: normalization (`normalize_user_field_value`) -/

lemma find_canonical (c pt : String) (hpt : pt ∈ projectTypeValues)
    (h : asciiLower c = asciiLower pt) :
    projectTypeValues.find? (fun q => asciiLower c == asciiLower q) =
      some pt := by
  fin_cases hpt <;> simp only [h] <;> decide

/-- **C9.** `normalize_user_field_value` whitespace-collapses its input.
For `project_type`: a case-insensitive match against the enumeration yields
the canonical enumeration text at confidence 1.0 (in particular an
already-canonical project type maps to itself at 1.0); otherwise the
collapsed raw text at confidence 0.4.  For every other field: the collapsed
text, at confidence 1.0 when non-empty and 0.0 when empty. -/
theorem normalize_user_field_value_spec (value : String) :
    (∀ pt ∈ projectTypeValues,
      asciiLower (pyCollapse value) = asciiLower pt →
      normalizeUserFieldValue "project_type" value = (pt, 1)) ∧
    ((∀ pt ∈ projectTypeValues,
        asciiLower (pyCollapse value) ≠ asciiLower pt) →
      normalizeUserFieldValue "project_type" value =
        (pyCollapse value, mkRat 2 5)) ∧
    (∀ fieldName : String, fieldName ≠ "project_type" →
      normalizeUserFieldValue fieldName value =
        (pyCollapse value, if pyCollapse value = "" then 0 else 1)) ∧
    (∀ pt ∈ projectTypeValues,
      normalizeUserFieldValue "project_type" pt = (pt, 1)) := by
  refine ⟨?_, ?_, ?_, ?_⟩
  · intro pt hpt h
    unfold normalizeUserFieldValue
    rw [if_pos (by decide), find_canonical _ pt hpt h]
  · intro h
    unfold normalizeUserFieldValue
    rw [if_pos (by decide),
      List.find?_eq_none.mpr fun pt hpt => by
        simpa using h pt hpt]
  · intro fieldName hf
    unfold normalizeUserFieldValue
    rw [if_neg (by simpa using hf)]
    by_cases he : pyCollapse value = "" <;> simp [he]
  · intro pt hpt
    fin_cases hpt <;> decide

/-- Witness for `normalize_user_field_value_spec`: the enumeration match
(`"cli TOOL"` canonicalizes to `"CLI tool"` at 1.0), a non-member kept at
0.4, a plain field at 1.0, and idempotence on `"web app"`. -/
theorem normalize_user_field_value_spec_witness :
    normalizeUserFieldValue "project_type" " cli   TOOL " = ("CLI tool", 1) ∧
    normalizeUserFieldValue "project_type" "games console" =
      ("games console", mkRat 2 5) ∧
    normalizeUserFieldValue "inputs" "  CSV   files " =
      ("CSV files", if ("CSV files" : String) = "" then 0 else 1) ∧
    normalizeUserFieldValue "project_type" "web app" = ("web app", 1) :=
  ⟨(normalize_user_field_value_spec " cli   TOOL ").1 "CLI tool" (by decide)
      (by decide),
   (normalize_user_field_value_spec "games console").2.1 (by decide),
   by
    have h := (normalize_user_field_value_spec "  CSV   files ").2.2.1 "inputs"
      (by decide)
    rwa [show pyCollapse "  CSV   files " = "CSV files" by decide] at h,
   (normalize_user_field_value_spec "web app").2.2.2 "web app" (by decide)⟩

/-! ## Theorems: heuristic extraction confidences -/

/-- The confidence/rationale discipline of heuristically extracted
candidates: confidence among the five values the parser can assign, and
reaching 0.8 only as an explicit label at 0.95. -/
def GoodCand (c : FieldCandidate) : Prop :=
  c.confidence ∈ ([0, mkRat 2 5, mkRat 11 20, mkRat 7 10, mkRat 19 20] : List ℚ) ∧
  (mkRat 4 5 ≤ c.confidence →
    c.confidence = mkRat 19 20 ∧ c.rationale = "explicit_label")

lemma good_all_setF {d : SpecDraft} {c : FieldCandidate} (f : FieldName)
    (hc : GoodCand c) (hd : ∀ g, GoodCand (getF d g)) :
    ∀ g, GoodCand (getF (setF d f c) g) := by
  intro g
  by_cases hg : g = f
  · subst hg; rw [getF_setF_same]; exact hc
  · rw [getF_setF_ne _ _ _ _ hg]; exact hd g

lemma goodCand_label (v : String) :
    GoodCand { value := v, confidence := mkRat 19 20,
               rationale := "explicit_label" } :=
  ⟨show mkRat 19 20 ∈ _ from by decide, fun _ => ⟨rfl, rfl⟩⟩

lemma goodCand_keyword (v : String) :
    GoodCand { value := v, confidence := mkRat 7 10,
               rationale := "keyword_inference" } :=
  ⟨show mkRat 7 10 ∈ _ from by decide,
   fun h => absurd h (show ¬ mkRat 4 5 ≤ mkRat 7 10 from by decide)⟩

lemma goodCand_title (v : String) :
    GoodCand { value := v, confidence := mkRat 11 20,
               rationale := "title_inference" } :=
  ⟨show mkRat 11 20 ∈ _ from by decide,
   fun h => absurd h (show ¬ mkRat 4 5 ≤ mkRat 11 20 from by decide)⟩

lemma goodCand_excerpt (v : String) :
    GoodCand { value := v, confidence := mkRat 2 5,
               rationale := "fallback_prompt_excerpt" } :=
  ⟨show mkRat 2 5 ∈ _ from by decide,
   fun h => absurd h (show ¬ mkRat 4 5 ≤ mkRat 2 5 from by decide)⟩

lemma good_all_labelStep {d : SpecDraft} (f : FieldName) (v : String)
    (hd : ∀ g, GoodCand (getF d g)) :
    ∀ g, GoodCand (getF (labelStep d f v) g) := by
  unfold labelStep
  split
  · exact hd
  · exact good_all_setF f (goodCand_label v) hd

lemma good_all_ite {c : Prop} [Decidable c] {d d' : SpecDraft}
    (hd : ∀ g, GoodCand (getF d g)) (hd' : ∀ g, GoodCand (getF d' g)) :
    ∀ g, GoodCand (getF (if c then d else d') g) := by
  split
  · exact hd
  · exact hd'

lemma parsePrompt_good (prompt : String) :
    ∀ g, GoodCand (getF (parsePrompt prompt) g) := by
  have h0 : ∀ g, GoodCand (getF ({} : SpecDraft) g) := by
    intro g; cases g <;> exact ⟨by decide, by decide⟩
  unfold parsePrompt
  refine good_all_ite (good_all_setF _ (goodCand_excerpt _) ?_) ?_ <;>
  refine good_all_ite (good_all_ite ?_ (good_all_setF _ (goodCand_title _) ?_)) ?_ <;>
  refine good_all_ite (good_all_ite ?_ (good_all_setF _ (goodCand_keyword _) ?_)) ?_ <;>
  exact good_all_labelStep _ _ (good_all_labelStep _ _ (good_all_labelStep _ _
    (good_all_labelStep _ _ (good_all_labelStep _ _ (good_all_labelStep _ _
      (good_all_labelStep _ _ (good_all_labelStep _ _ h0)))))))

/-- **C10.** For every prompt string, heuristic extraction terminates with
a draft (the embedding is a total function — `parse_prompt` never raises)
in which every field's confidence is one of 0, 0.4, 0.55, 0.7, 0.95; and a
field whose confidence reaches the 0.8 acceptance threshold can only be an
explicit `Label: value` capture: its confidence is 0.95 and its rationale
`"explicit_label"`. -/
theorem parse_prompt_confidence_values (prompt : String) (f : FieldName) :
    (getF (parsePrompt prompt) f).confidence ∈
      ([0, mkRat 2 5, mkRat 11 20, mkRat 7 10, mkRat 19 20] : List ℚ) ∧
    (mkRat 4 5 ≤ (getF (parsePrompt prompt) f).confidence →
      (getF (parsePrompt prompt) f).confidence = mkRat 19 20 ∧
      (getF (parsePrompt prompt) f).rationale = "explicit_label") :=
  parsePrompt_good prompt f

/-- Witness for `parse_prompt_confidence_values`: an explicit label line
reaches 0.95 with rationale `"explicit_label"`. -/
theorem parse_prompt_confidence_values_witness :
    (getF (parsePrompt "Inputs: CSV files") .inputs).confidence = mkRat 19 20 ∧
    (getF (parsePrompt "Inputs: CSV files") .inputs).rationale =
      "explicit_label" :=
  (parse_prompt_confidence_values "Inputs: CSV files" .inputs).2 (by decide)

/-! ## LLM provider payload validation (`providers.py`)

`OpenAIProvider._validate_and_build` receives the JSON payload decoded by
`json.loads`.  JSON values are modelled by `PyVal`; Python floats by
`PyFloat`.  `float(x)` is modelled in full for the types a decoded
payload can hold: floats pass through, booleans become 0/1, ints round to
the nearest double (raising `OverflowError` — which the validator does
not catch — beyond the double range), and strings follow CPython's
conversion: Unicode decimal digits and whitespace are first rewritten to
ASCII, each digit-group underscore must sit between two digits, the
string is stripped of ASCII whitespace, and the grammar
`[sign] (inf[inity] | nan | digits[.digits][e[sign]digits])`
(case-insensitive) applies, finite results being rounded to the nearest
double (ties to even, overflow to infinity, underflow through the
subnormal range to zero). -/

/-- A Python float: a finite value (carried as an exact rational — every
finite double is one), a signed infinity, or NaN. -/
inductive PyFloat where
  | finite (q : ℚ)
  | inf (neg : Bool)
  | nan
deriving DecidableEq, Repr

/-- Python `<` on floats: any comparison with NaN is false. -/
def PyFloat.ltB : PyFloat → PyFloat → Bool
  | .nan, _ => false
  | _, .nan => false
  | .inf true, .inf true => false
  | .inf true, _ => true
  | .inf false, _ => false
  | .finite _, .inf true => false
  | .finite _, .inf false => true
  | .finite a, .finite b => decide (a < b)

/-- `n / d ≥ 2 ^ k` for naturals `n`, `d` and an integer exponent `k`. -/
def geTwoPow (n d : Nat) (k : Int) : Bool :=
  if 0 ≤ k then decide (d * 2 ^ k.toNat ≤ n)
  else decide (d ≤ n * 2 ^ (-k).toNat)

/-- Round `n / d` to the nearest integer, ties to even (`d ≠ 0`). -/
def rheNat (n d : Nat) : Nat :=
  let q := n / d
  let r := n % d
  if 2 * r < d then q
  else if d < 2 * r then q + 1
  else if q % 2 = 0 then q else q + 1

/-- Bisection for the binary exponent of `n / d`: given a bracket with
`2 ^ lo ≤ n / d < 2 ^ hi`, narrows it to the `e` with
`2 ^ e ≤ n / d < 2 ^ (e + 1)`. -/
def findExpAux (n d : Nat) : Nat → Int → Int → Int
  | 0, lo, _ => lo
  | fuel + 1, lo, hi =>
      if hi ≤ lo + 1 then lo
      else
        let mid := (lo + hi) / 2
        if geTwoPow n d mid then findExpAux n d fuel mid hi
        else findExpAux n d fuel lo mid

/-- Round `n / d` to a multiple of the quantum `2 ^ u`, ties to even;
returns the multiplier. -/
def scaledRound (n d : Nat) (u : Int) : Nat :=
  if 0 ≤ u then rheNat n (d * 2 ^ u.toNat)
  else rheNat (n * 2 ^ (-u).toNat) d

/-- Round the positive rational `n / d` to the nearest IEEE-754 double:
round-to-nearest, ties to even; subnormal quantum `2 ^ (-1074)` below
`2 ^ (-1022)`; overflow to infinity at `2 ^ 1024`. -/
def roundPosRat (n d : Nat) : PyFloat :=
  if geTwoPow n d 1024 then .inf false
  else
    let u : Int :=
      if geTwoPow n d (-1022) then findExpAux n d 12 (-1022) 1024 - 52
      else -1074
    let m := scaledRound n d u
    let v : ℚ :=
      if 0 ≤ u then mkRat (m * 2 ^ u.toNat) 1 else mkRat m (2 ^ (-u).toNat)
    if geTwoPow v.num.natAbs v.den 1024 then .inf false else .finite v

/-- Round a rational to the nearest IEEE-754 double. -/
def roundToDouble (q : ℚ) : PyFloat :=
  if q = 0 then .finite 0
  else if q.num < 0 then
    match roundPosRat q.num.natAbs q.den with
    | .inf _ => .inf true
    | .nan => .nan
    | .finite v => .finite (-v)
  else roundPosRat q.num.natAbs q.den

/-- Start codepoints of the Unicode `Nd` (decimal digit) blocks: each
block is ten consecutive codepoints carrying the digit values 0–9
(Unicode data as shipped with CPython 3.11). -/
def ndStarts : List Nat :=
  [48, 1632, 1776, 1984, 2406, 2534, 2662, 2790, 2918, 3046, 3174, 3302,
   3430, 3558, 3664, 3792, 3872, 4160, 4240, 6112, 6160, 6470, 6608, 6784,
   6800, 6992, 7088, 7232, 7248, 42528, 43216, 43264, 43472, 43504, 43600,
   44016, 65296, 66720, 68912, 69734, 69872, 69942, 70096, 70384, 70736,
   70864, 71248, 71360, 71472, 71904, 72016, 72784, 73040, 73120, 92768,
   92864, 93008, 120782, 120792, 120802, 120812, 120822, 123200, 123632,
   125264, 130032]

/-- The decimal value of a Unicode `Nd` digit, if `c` is one. -/
def decDigitVal (c : Char) : Option Nat :=
  match ndStarts.find? (fun s =>
      decide (s ≤ c.toNat) && decide (c.toNat < s + 10)) with
  | some s => some (c.toNat - s)
  | none => none

/-- CPython's pre-pass on a string handed to `float()`
(`_PyUnicode_TransformDecimalAndSpaceToASCII`): ASCII characters pass
through, non-ASCII decimal digits become the corresponding ASCII digit,
non-ASCII whitespace becomes a space, and any other non-ASCII character
makes the conversion fail. -/
def transformChar (c : Char) : Option Char :=
  if c.toNat < 128 then some c
  else
    match decDigitVal c with
    | some d => some (Char.ofNat (48 + d))
    | none => if charIsPySpace c then some ' ' else none

/-- The pre-pass over a whole string. -/
def transformChars : List Char → Option (List Char)
  | [] => some []
  | c :: cs =>
      match transformChar c, transformChars cs with
      | some c2, some cs2 => some (c2 :: cs2)
      | _, _ => none

/-- The PEP 515 underscore rule in `float()`: every underscore must sit
between two ASCII digits. -/
def underscoresOkAux : Option Char → List Char → Bool
  | _, [] => true
  | prev, c :: rest =>
      if c = '_' then
        (match prev with
          | some p => p.isDigit
          | none => false) &&
        (match rest with
          | r :: _ => r.isDigit
          | [] => false) &&
        underscoresOkAux (some c) rest
      else underscoresOkAux (some c) rest

/-- The ASCII whitespace stripped by the C-level float parser
(space, `\t`, `\n`, `\v`, `\f`, `\r`; unlike `str.strip()`, the ASCII
separator controls 0x1c–0x1f are not stripped). -/
def isCFloatSpace (c : Char) : Bool :=
  c = ' ' || c = '\t' || c = '\n' || c = '\r' ||
  c.val = 0x0b || c.val = 0x0c

/-- The numeric value of an ASCII digit run. -/
def digitsToNat (l : List Char) : Nat :=
  l.foldl (fun n c => n * 10 + (c.toNat - 48)) 0

/-- The optional exponent suffix `e[±]digits`; returns the exponent, or
`none` on trailing garbage. -/
def parseExpSuffix (l : List Char) : Option Int :=
  match l with
  | [] => some 0
  | c :: t =>
      if c = 'e' ∨ c = 'E' then
        let sign : Int × List Char :=
          match t with
          | '+' :: u => (1, u)
          | '-' :: u => (-1, u)
          | u => (1, u)
        let ed := sign.2.takeWhile Char.isDigit
        if ed.isEmpty ∨ !(sign.2.drop ed.length).isEmpty then none
        else some (sign.1 * digitsToNat ed)
      else none

/-- The `float()` grammar after the pre-pass, underscore removal, strip
and sign: case-insensitive `inf`/`infinity`/`nan`, or a decimal mantissa
with optional fraction and exponent, rounded to the nearest double. -/
def parseFloatBody (neg : Bool) (l0 : List Char) : Option PyFloat :=
  let l := l0.map asciiLowerChar
  if l = "inf".data ∨ l = "infinity".data then some (.inf neg)
  else if l = "nan".data then some .nan
  else
    let ip := l.takeWhile Char.isDigit
    let l1 := l.drop ip.length
    let mant : Option (Nat × Nat) :=
      match l1 with
      | '.' :: t =>
          let fp := t.takeWhile Char.isDigit
          if ip.isEmpty && fp.isEmpty then none
          else some (digitsToNat ip * 10 ^ fp.length + digitsToNat fp,
                     fp.length)
      | _ => if ip.isEmpty then none else some (digitsToNat ip, 0)
    match mant with
    | none => none
    | some (n, fracLen) =>
        let rest :=
          match l1 with
          | '.' :: t => t.drop (t.takeWhile Char.isDigit).length
          | _ => l1
        match parseExpSuffix rest with
        | none => none
        | some e =>
            let mag : ℚ :=
              if 0 ≤ e then mkRat (n * 10 ^ e.toNat) (10 ^ fracLen)
              else mkRat n (10 ^ fracLen * 10 ^ (-e).toNat)
            some (roundToDouble (if neg then -mag else mag))

/-- CPython `float(s)` on a string: pre-pass to ASCII, underscore check,
underscore removal, ASCII strip, optional sign, then the grammar. -/
def pyFloatStr (s : String) : Option PyFloat :=
  match transformChars s.data with
  | none => none
  | some t =>
      if underscoresOkAux none t then
        let u := t.filter (fun c => c != '_')
        let w := (u.dropWhile isCFloatSpace).rdropWhile isCFloatSpace
        match w with
        | '+' :: b => parseFloatBody false b
        | '-' :: b => parseFloatBody true b
        | b => parseFloatBody false b
      else none

/-- A decoded JSON value: `json.loads` yields strings, ints, floats
(including the infinities and NaN its default parser accepts), booleans,
`None`, lists and dicts. -/
inductive PyVal where
  | str (s : String)
  | intNum (n : Int)
  | floatNum (f : PyFloat)
  | bool (b : Bool)
  | null
  | list (l : List PyVal)
  | dict (entries : List (String × PyVal))

/-- The outcome of `float(x)`: a float, a `TypeError`/`ValueError` (both
caught by `_validate_and_build`), or an `OverflowError` (not caught). -/
inductive FloatConv where
  | ok (f : PyFloat)
  | convError
  | overflow
deriving DecidableEq, Repr

/-- `float(x)`: floats pass through, ints round (raising `OverflowError`
beyond the double range), booleans become 0/1, strings are parsed; other
types raise `TypeError`. -/
def pyFloat : PyVal → FloatConv
  | .floatNum f => .ok f
  | .intNum n =>
      match roundToDouble (mkRat n 1) with
      | .inf _ => .overflow
      | f => .ok f
  | .bool b => .ok (.finite (if b then 1 else 0))
  | .str s =>
      match pyFloatStr s with
      | some f => .ok f
      | none => .convError
  | _ => .convError

/-- `dict.get(key)` on an association list (keys from `json.loads` are
unique). -/
def pyDictGet (entries : List (String × PyVal)) (key : String) :
    Option PyVal :=
  match entries with
  | [] => none
  | (k, v) :: rest => if k == key then some v else pyDictGet rest key

/-- An abnormal exit of `_validate_and_build`: a `ProviderError` it
raises itself, or a Python exception it lets escape (the `OverflowError`
from `float()` of an oversized int). -/
inductive VErr where
  | provider (msg : String)
  | pyExc (msg : String)
deriving DecidableEq, Repr

/-- Is the error a `ProviderError`? -/
def VErr.isProvider : VErr → Bool
  | .provider _ => true
  | .pyExc _ => false

/-- The per-field body of `_validate_and_build`: presence of the field
object, `value` a string, `confidence` convertible and in range
(`confidence_num < 0 or confidence_num > 1` — NaN passes, both
comparisons being false), `rationale` a string; returns the normalized
`(value, confidence, rationale)` triple. -/
def validateField (entries : List (String × PyVal)) (fieldName : String) :
    Except VErr (String × PyFloat × String) :=
  match pyDictGet entries fieldName with
  | some (PyVal.dict sub) =>
      let fieldValue := (pyDictGet sub "value").getD (PyVal.str "")
      let confidence :=
        (pyDictGet sub "confidence").getD (PyVal.floatNum (PyFloat.finite 0))
      let rationale := (pyDictGet sub "rationale").getD (PyVal.str "")
      match fieldValue with
      | PyVal.str v =>
          match pyFloat confidence with
          | FloatConv.ok c =>
              if c.ltB (PyFloat.finite 0) || (PyFloat.finite 1).ltB c then
                Except.error (VErr.provider
                  ("Field " ++ fieldName ++ ".confidence out of range [0,1]."))
              else
                match rationale with
                | PyVal.str r => Except.ok (pyStrip v, c, pyStrip r)
                | _ => Except.error (VErr.provider
                    ("Field " ++ fieldName ++ ".rationale must be string."))
          | FloatConv.convError => Except.error (VErr.provider
              ("Field " ++ fieldName ++ ".confidence must be number."))
          | FloatConv.overflow => Except.error (VErr.pyExc
              "OverflowError: int too large to convert to float")
      | _ => Except.error (VErr.provider
          ("Field " ++ fieldName ++ ".value must be string."))
  | _ => Except.error (VErr.provider
      ("LLM payload missing object for field: " ++ fieldName))

/-- The loop of `_validate_and_build` over `REQUIRED_FIELDS`, building the
`normalized` mapping; any field error rejects the whole payload. -/
def validateFields (entries : List (String × PyVal)) :
    List FieldName → Except VErr (List (String × (String × PyFloat × String)))
  | [] => Except.ok []
  | f :: rest =>
      match validateField entries f.str with
      | Except.error e => Except.error e
      | Except.ok c =>
          match validateFields entries rest with
          | Except.error e => Except.error e
          | Except.ok l => Except.ok ((f.str, c) :: l)

/-- First-match lookup in the normalized mapping. -/
def lookupAssoc (m : List (String × (String × PyFloat × String)))
    (k : String) : Option (String × PyFloat × String) :=
  match m with
  | [] => none
  | (k', c) :: rest => if k' == k then some c else lookupAssoc rest k

/-- A field candidate as built from an LLM payload: its confidence is
whatever double `float()` produced (possibly NaN), so it is carried as a
`PyFloat` rather than the exact `ℚ` of the heuristic pipeline. -/
structure LlmCandidate where
  value : String := ""
  confidence : PyFloat := PyFloat.finite 0
  rationale : String := ""
deriving DecidableEq, Repr

/-- A Spec Draft as built from an LLM payload. -/
structure LlmDraft where
  project_name : LlmCandidate
  project_type : LlmCandidate
  primary_goal : LlmCandidate
  target_users : LlmCandidate
  inputs : LlmCandidate
  outputs : LlmCandidate
  constraints : LlmCandidate
  non_goals : LlmCandidate
deriving DecidableEq, Repr

/-- The candidate an `LlmDraft` holds for a field. -/
def getLF (d : LlmDraft) : FieldName → LlmCandidate
  | .project_name => d.project_name
  | .project_type => d.project_type
  | .primary_goal => d.primary_goal
  | .target_users => d.target_users
  | .inputs => d.inputs
  | .outputs => d.outputs
  | .constraints => d.constraints
  | .non_goals => d.non_goals

/-- The candidate a normalized mapping assigns to a field name. -/
def candOf (m : List (String × (String × PyFloat × String)))
    (k : String) : LlmCandidate :=
  match lookupAssoc m k with
  | some (v, c, r) => { value := v, confidence := c, rationale := r }
  | none => {}

/-- Modelled from the spec: `SpecDraft.from_dict` is called by
`_validate_and_build` but is absent from `models.py`.  Per the
specification, "Both variants must produce a Spec Draft with all required
fields populated": the draft takes every required field's candidate from
the normalized mapping. -/
def fromDict (m : List (String × (String × PyFloat × String))) : LlmDraft :=
  { project_name := candOf m "project_name",
    project_type := candOf m "project_type",
    primary_goal := candOf m "primary_goal",
    target_users := candOf m "target_users",
    inputs := candOf m "inputs",
    outputs := candOf m "outputs",
    constraints := candOf m "constraints",
    non_goals := candOf m "non_goals" }

/-- `OpenAIProvider._validate_and_build`. -/
def validateAndBuild (payload : PyVal) : Except VErr LlmDraft :=
  match payload with
  | PyVal.dict entries =>
      match validateFields entries REQUIRED_FIELDS with
      | Except.error e => Except.error e
      | Except.ok m => Except.ok (fromDict m)
  | _ => Except.error (VErr.provider "LLM payload must be a JSON object.")

/-- Per-field validity: the payload maps the field key to an object whose
`value` is a string, whose `confidence` converts via `float()` to a
double passed by the range check, and whose `rationale` is a string
(`value`, `confidence` and `rationale` defaulting to `""`, `0.0` and `""`
when absent, as the code does). -/
def fieldPayloadValidB (entries : List (String × PyVal))
    (fieldName : String) : Bool :=
  match pyDictGet entries fieldName with
  | some (PyVal.dict sub) =>
      (match (pyDictGet sub "value").getD (PyVal.str "") with
        | PyVal.str _ => true
        | _ => false) &&
      (match pyFloat ((pyDictGet sub "confidence").getD
          (PyVal.floatNum (PyFloat.finite 0))) with
        | FloatConv.ok c =>
            !(c.ltB (PyFloat.finite 0) || (PyFloat.finite 1).ltB c)
        | _ => false) &&
      (match (pyDictGet sub "rationale").getD (PyVal.str "") with
        | PyVal.str _ => true
        | _ => false)
  | _ => false

/-- Whole-payload validity. -/
def payloadValidB : PyVal → Bool
  | PyVal.dict entries =>
      REQUIRED_FIELDS.all fun f => fieldPayloadValidB entries f.str
  | _ => false

/-! ## Theorems: payload validation -/

lemma pyFloat_overflow_int (x : PyVal) (h : pyFloat x = FloatConv.overflow) :
    ∃ k : Int, x = PyVal.intNum k := by
  cases x with
  | intNum k => exact ⟨k, rfl⟩
  | str s =>
      rw [pyFloat] at h
      cases hp : pyFloatStr s <;> rw [hp] at h <;> cases h
  | floatNum f => cases h
  | bool b => cases h
  | null => cases h
  | list l => cases h
  | dict es => cases h

lemma validateField_spec (entries : List (String × PyVal)) (n : String) :
    (fieldPayloadValidB entries n = true →
      ∃ (sub : List (String × PyVal)) (v : String) (c : PyFloat)
        (r : String),
        pyDictGet entries n = some (PyVal.dict sub) ∧
        (pyDictGet sub "value").getD (PyVal.str "") = PyVal.str v ∧
        pyFloat ((pyDictGet sub "confidence").getD
          (PyVal.floatNum (PyFloat.finite 0))) = FloatConv.ok c ∧
        (c.ltB (PyFloat.finite 0) || (PyFloat.finite 1).ltB c) = false ∧
        (pyDictGet sub "rationale").getD (PyVal.str "") = PyVal.str r ∧
        validateField entries n = Except.ok (pyStrip v, c, pyStrip r)) ∧
    (fieldPayloadValidB entries n = false →
      ∃ e, validateField entries n = Except.error e ∧
        (VErr.isProvider e = true ∨
          ∃ (sub : List (String × PyVal)) (k : Int),
            pyDictGet entries n = some (PyVal.dict sub) ∧
            (pyDictGet sub "confidence").getD
              (PyVal.floatNum (PyFloat.finite 0)) = PyVal.intNum k ∧
            pyFloat (PyVal.intNum k) = FloatConv.overflow)) := by
  unfold fieldPayloadValidB validateField
  cases hget : pyDictGet entries n with
  | none => exact ⟨fun h => by simp at h, fun _ => ⟨_, rfl, Or.inl rfl⟩⟩
  | some pv =>
      cases pv with
      | dict sub =>
          dsimp only
          cases hv : (pyDictGet sub "value").getD (PyVal.str "") <;>
            try exact ⟨fun h => by simp at h, fun _ => ⟨_, rfl, Or.inl rfl⟩⟩
          rename_i v
          dsimp only
          cases hq : pyFloat ((pyDictGet sub "confidence").getD
              (PyVal.floatNum (PyFloat.finite 0))) with
          | convError =>
              exact ⟨fun h => by simp at h, fun _ => ⟨_, rfl, Or.inl rfl⟩⟩
          | overflow =>
              obtain ⟨k, hk⟩ := pyFloat_overflow_int _ hq
              exact ⟨fun h => by simp at h,
                fun _ => ⟨_, rfl, Or.inr ⟨sub, k, rfl, hk, hk ▸ hq⟩⟩⟩
          | ok c =>
              dsimp only
              cases hrange : c.ltB (PyFloat.finite 0) ||
                  (PyFloat.finite 1).ltB c with
              | true =>
                  exact ⟨fun h => by simp at h,
                    fun _ => ⟨_, rfl, Or.inl rfl⟩⟩
              | false =>
                  cases hr : (pyDictGet sub "rationale").getD
                      (PyVal.str "") <;>
                    try exact ⟨fun h => by simp at h,
                      fun _ => ⟨_, rfl, Or.inl rfl⟩⟩
                  rename_i r
                  exact ⟨fun _ => ⟨sub, v, c, r, rfl, hv, hq, hrange, hr,
                    rfl⟩, fun h => by simp at h⟩
      | str s => exact ⟨fun h => by simp at h, fun _ => ⟨_, rfl, Or.inl rfl⟩⟩
      | intNum k =>
          exact ⟨fun h => by simp at h, fun _ => ⟨_, rfl, Or.inl rfl⟩⟩
      | floatNum x =>
          exact ⟨fun h => by simp at h, fun _ => ⟨_, rfl, Or.inl rfl⟩⟩
      | bool b => exact ⟨fun h => by simp at h, fun _ => ⟨_, rfl, Or.inl rfl⟩⟩
      | null => exact ⟨fun h => by simp at h, fun _ => ⟨_, rfl, Or.inl rfl⟩⟩
      | list l => exact ⟨fun h => by simp at h, fun _ => ⟨_, rfl, Or.inl rfl⟩⟩

lemma validateFields_ok (entries : List (String × PyVal)) :
    ∀ fs : List FieldName,
      (∀ f ∈ fs, fieldPayloadValidB entries f.str = true) →
      ∃ m, validateFields entries fs = Except.ok m ∧
        ∀ f ∈ fs, ∃ (sub : List (String × PyVal)) (v : String)
          (c : PyFloat) (r : String),
          pyDictGet entries f.str = some (PyVal.dict sub) ∧
          (pyDictGet sub "value").getD (PyVal.str "") = PyVal.str v ∧
          pyFloat ((pyDictGet sub "confidence").getD
            (PyVal.floatNum (PyFloat.finite 0))) = FloatConv.ok c ∧
          (pyDictGet sub "rationale").getD (PyVal.str "") = PyVal.str r ∧
          lookupAssoc m f.str = some (pyStrip v, c, pyStrip r) := by
  intro fs
  induction fs with
  | nil => exact fun _ => ⟨[], rfl, by simp⟩
  | cons f rest ih =>
      intro h
      obtain ⟨sub, v, c, r, hget, hv, hq, -, hr, hok⟩ :=
        (validateField_spec entries f.str).1 (h f (List.mem_cons_self f rest))
      obtain ⟨m, hm, hmspec⟩ := ih fun g hg => h g (List.mem_cons_of_mem _ hg)
      refine ⟨(f.str, (pyStrip v, c, pyStrip r)) :: m, ?_, ?_⟩
      · rw [validateFields, hok, hm]
      · intro g hg
        rcases List.mem_cons.mp hg with rfl | hg'
        · exact ⟨sub, v, c, r, hget, hv, hq, hr,
            by rw [lookupAssoc]; simp⟩
        · by_cases hk : f.str = g.str
          · have hget2 : pyDictGet entries g.str = some (PyVal.dict sub) :=
              hk ▸ hget
            exact ⟨sub, v, c, r, hget2, hv, hq, hr,
              by rw [lookupAssoc, if_pos (by simp [hk])]⟩
          · obtain ⟨sub', v', c', r', hget', hv', hq', hr', hlook'⟩ :=
              hmspec g hg'
            exact ⟨sub', v', c', r', hget', hv', hq', hr',
              by rw [lookupAssoc, if_neg (by simp [hk])]; exact hlook'⟩

lemma validateFields_error (entries : List (String × PyVal)) :
    ∀ fs : List FieldName,
      (∃ f ∈ fs, fieldPayloadValidB entries f.str = false) →
      ∃ e, validateFields entries fs = Except.error e ∧
        (VErr.isProvider e = true ∨
          ∃ (f : FieldName) (sub : List (String × PyVal)) (k : Int),
            pyDictGet entries f.str = some (PyVal.dict sub) ∧
            (pyDictGet sub "confidence").getD
              (PyVal.floatNum (PyFloat.finite 0)) = PyVal.intNum k ∧
            pyFloat (PyVal.intNum k) = FloatConv.overflow) := by
  intro fs
  induction fs with
  | nil => rintro ⟨f, hf, -⟩; simp at hf
  | cons f rest ih =>
      rintro ⟨g, hg, hgbad⟩
      cases hvf : fieldPayloadValidB entries f.str with
      | false =>
          obtain ⟨e, he, hd⟩ := (validateField_spec entries f.str).2 hvf
          refine ⟨e, by rw [validateFields, he], ?_⟩
          rcases hd with hp | ⟨sub, k, h1, h2, h3⟩
          · exact Or.inl hp
          · exact Or.inr ⟨f, sub, k, h1, h2, h3⟩
      | true =>
          have hgrest : g ∈ rest := by
            rcases List.mem_cons.mp hg with rfl | hg'
            · exact absurd hvf (by simp [hgbad])
            · exact hg'
          obtain ⟨e, he, hd⟩ := ih ⟨g, hgrest, hgbad⟩
          obtain ⟨sub, v, c, r, -, -, -, -, -, hok⟩ :=
            (validateField_spec entries f.str).1 hvf
          exact ⟨e, by rw [validateFields, hok, he], hd⟩

/-- **C2 (amended).** For every JSON payload, `_validate_and_build` either
raises — a `ProviderError` when the payload is not an object, a required
field key is absent or not an object, its `value` or `rationale` is not a
string, its `confidence` fails `float()` conversion with a
`TypeError`/`ValueError`, or the converted double falls outside `[0,1]`;
or an uncaught `OverflowError`, which happens only when a confidence is
an integer too large for a double — or, when the payload passes every
check, returns a Spec Draft in which all 8 required fields are populated
from that payload (values and rationales stripped, confidence the
converted double).  `float()` also accepts numeric strings and booleans,
and a NaN confidence passes the range check (NaN comparisons are false),
so confidences given as the JSON strings `"0.5"` or `"nan"` are accepted
rather than rejected.  `SpecDraft.from_dict` on the success path is
modelled from the spec, being absent from `models.py`. -/
theorem validate_and_build_spec (payload : PyVal) :
    (payloadValidB payload = true →
      ∃ d, validateAndBuild payload = Except.ok d ∧
        ∀ f : FieldName, ∃ (entries sub : List (String × PyVal))
          (v : String) (c : PyFloat) (r : String),
          payload = PyVal.dict entries ∧
          pyDictGet entries f.str = some (PyVal.dict sub) ∧
          (pyDictGet sub "value").getD (PyVal.str "") = PyVal.str v ∧
          pyFloat ((pyDictGet sub "confidence").getD
            (PyVal.floatNum (PyFloat.finite 0))) = FloatConv.ok c ∧
          (pyDictGet sub "rationale").getD (PyVal.str "") = PyVal.str r ∧
          getLF d f = { value := pyStrip v, confidence := c,
                        rationale := pyStrip r }) ∧
    (payloadValidB payload = false →
      ∃ e, validateAndBuild payload = Except.error e ∧
        (VErr.isProvider e = true ∨
          ∃ (entries sub : List (String × PyVal)) (f : FieldName) (k : Int),
            payload = PyVal.dict entries ∧
            pyDictGet entries f.str = some (PyVal.dict sub) ∧
            (pyDictGet sub "confidence").getD
              (PyVal.floatNum (PyFloat.finite 0)) = PyVal.intNum k ∧
            pyFloat (PyVal.intNum k) = FloatConv.overflow)) := by
  constructor
  · intro hvalid
    cases payload with
    | dict entries =>
        have hall : ∀ f ∈ REQUIRED_FIELDS,
            fieldPayloadValidB entries f.str = true :=
          List.all_eq_true.mp hvalid
        obtain ⟨m, hm, hmspec⟩ :=
          validateFields_ok entries REQUIRED_FIELDS hall
        refine ⟨fromDict m, by rw [validateAndBuild, hm], ?_⟩
        intro f
        obtain ⟨sub, v, c, r, hget, hv, hq, hr, hlook⟩ :=
          hmspec f (by cases f <;> decide)
        refine ⟨entries, sub, v, c, r, rfl, hget, hv, hq, hr, ?_⟩
        have hgf : getLF (fromDict m) f = candOf m f.str := by
          cases f <;> rfl
        rw [hgf, candOf, hlook]
    | str s => simp [payloadValidB] at hvalid
    | intNum k => simp [payloadValidB] at hvalid
    | floatNum x => simp [payloadValidB] at hvalid
    | bool b => simp [payloadValidB] at hvalid
    | null => simp [payloadValidB] at hvalid
    | list l => simp [payloadValidB] at hvalid
  · intro hinvalid
    cases payload with
    | dict entries =>
        have hex : ∃ f ∈ REQUIRED_FIELDS,
            fieldPayloadValidB entries f.str = false := by
          by_contra hc
          push_neg at hc
          have : payloadValidB (PyVal.dict entries) = true :=
            List.all_eq_true.mpr fun f hf => by
              cases hx : fieldPayloadValidB entries f.str with
              | false => exact absurd hx (hc f hf)
              | true => rfl
          rw [this] at hinvalid
          exact absurd hinvalid (by simp)
        obtain ⟨e, he, hd⟩ :=
          validateFields_error entries REQUIRED_FIELDS hex
        refine ⟨e, by rw [validateAndBuild, he], ?_⟩
        rcases hd with hp | ⟨f, sub, k, h1, h2, h3⟩
        · exact Or.inl hp
        · exact Or.inr ⟨entries, sub, f, k, rfl, h1, h2, h3⟩
    | str s => exact ⟨_, rfl, Or.inl rfl⟩
    | intNum k => exact ⟨_, rfl, Or.inl rfl⟩
    | floatNum x => exact ⟨_, rfl, Or.inl rfl⟩
    | bool b => exact ⟨_, rfl, Or.inl rfl⟩
    | null => exact ⟨_, rfl, Or.inl rfl⟩
    | list l => exact ⟨_, rfl, Or.inl rfl⟩

/-- A payload in which every required field is well-formed except that
each `confidence` is the JSON string `"0.5"`, not a number. -/
def strConfidencePayload : PyVal :=
  PyVal.dict (REQUIRED_FIELDS.map fun f =>
    (f.str, PyVal.dict
      [("value", PyVal.str "x"), ("confidence", PyVal.str "0.5"),
       ("rationale", PyVal.str "r")]))

/-- A payload whose confidences are the JSON string `"nan"`. -/
def nanConfidencePayload : PyVal :=
  PyVal.dict (REQUIRED_FIELDS.map fun f =>
    (f.str, PyVal.dict
      [("value", PyVal.str "x"), ("confidence", PyVal.str "nan"),
       ("rationale", PyVal.str "r")]))

set_option maxRecDepth 8000 in
set_option exponentiation.threshold 4000 in
/-- **C2 counterexample.** The claim requires a `ProviderError` whenever a
confidence is "not a number in [0,1]"; but `float(confidence)` also
converts numeric strings, so a payload whose confidences are the JSON
*string* `"0.5"` is accepted and a full draft returned — and a payload
whose confidences are the string `"nan"` is accepted as well, NaN passing
the `< 0 or > 1` range check because NaN comparisons are false, although
NaN is not a number in `[0,1]`. -/
theorem validate_accepts_string_confidence :
    validateAndBuild strConfidencePayload =
      Except.ok
        { project_name := ⟨"x", PyFloat.finite (mkRat 1 2), "r"⟩,
          project_type := ⟨"x", PyFloat.finite (mkRat 1 2), "r"⟩,
          primary_goal := ⟨"x", PyFloat.finite (mkRat 1 2), "r"⟩,
          target_users := ⟨"x", PyFloat.finite (mkRat 1 2), "r"⟩,
          inputs := ⟨"x", PyFloat.finite (mkRat 1 2), "r"⟩,
          outputs := ⟨"x", PyFloat.finite (mkRat 1 2), "r"⟩,
          constraints := ⟨"x", PyFloat.finite (mkRat 1 2), "r"⟩,
          non_goals := ⟨"x", PyFloat.finite (mkRat 1 2), "r"⟩ } ∧
    validateAndBuild nanConfidencePayload =
      Except.ok
        { project_name := ⟨"x", PyFloat.nan, "r"⟩,
          project_type := ⟨"x", PyFloat.nan, "r"⟩,
          primary_goal := ⟨"x", PyFloat.nan, "r"⟩,
          target_users := ⟨"x", PyFloat.nan, "r"⟩,
          inputs := ⟨"x", PyFloat.nan, "r"⟩,
          outputs := ⟨"x", PyFloat.nan, "r"⟩,
          constraints := ⟨"x", PyFloat.nan, "r"⟩,
          non_goals := ⟨"x", PyFloat.nan, "r"⟩ } :=
  ⟨rfl, rfl⟩

/-- A fully well-formed payload with numeric confidences. -/
def numericPayload : PyVal :=
  PyVal.dict (REQUIRED_FIELDS.map fun f =>
    (f.str, PyVal.dict
      [("value", PyVal.str " v "),
       ("confidence", PyVal.floatNum (PyFloat.finite (mkRat 9 10))),
       ("rationale", PyVal.str "why")]))

/-- Witness for `validate_and_build_spec`: a well-formed payload is
accepted and an empty-object payload (all field keys absent) is
rejected. -/
theorem validate_and_build_spec_witness :
    (∃ d, validateAndBuild numericPayload = Except.ok d ∧
      ∀ f : FieldName, ∃ (entries sub : List (String × PyVal))
        (v : String) (c : PyFloat) (r : String),
        numericPayload = PyVal.dict entries ∧
        pyDictGet entries f.str = some (PyVal.dict sub) ∧
        (pyDictGet sub "value").getD (PyVal.str "") = PyVal.str v ∧
        pyFloat ((pyDictGet sub "confidence").getD
          (PyVal.floatNum (PyFloat.finite 0))) = FloatConv.ok c ∧
        (pyDictGet sub "rationale").getD (PyVal.str "") = PyVal.str r ∧
        getLF d f = { value := pyStrip v, confidence := c,
                      rationale := pyStrip r }) ∧
    (∃ e, validateAndBuild (PyVal.dict []) = Except.error e ∧
      (VErr.isProvider e = true ∨
        ∃ (entries sub : List (String × PyVal)) (f : FieldName) (k : Int),
          PyVal.dict [] = PyVal.dict entries ∧
          pyDictGet entries f.str = some (PyVal.dict sub) ∧
          (pyDictGet sub "confidence").getD
            (PyVal.floatNum (PyFloat.finite 0)) = PyVal.intNum k ∧
          pyFloat (PyVal.intNum k) = FloatConv.overflow)) :=
  ⟨(validate_and_build_spec numericPayload).1 (by rfl),
   (validate_and_build_spec (PyVal.dict [])).2 (by rfl)⟩

end SpecEngine
